import Mathlib

/-!
Shallow embedding of the pcap / pcap-ng reader and filter of
`src/libtscore/pcap/tsPcapFile.{h,cpp}` and `src/libtscore/pcap/tsPcapFilter.cpp`.

Byte buffers and input streams are `List Nat` (one `Nat` per byte).  Machine
integers are `Nat`/`Int`; C++ signed 64-bit division and modulo are `Int.tdiv`
and `Int.tmod` (truncation toward zero).  Fallible reads return `Option` or
`Except`.  The opaque parts (IP datagram parsing, double-precision division)
are parameters of the model, gathered in an `Oracle`.
-/

/-! ### Format constants

Numeric constants from `tsPcap.h` (not part of the analyzed sources); the
values are the ones given in the specification tables (magic numbers, block
types, option tags) and the standard IANA / libpcap values for link types,
EtherTypes and BSD protocol families.
-/

def PCAP_MAGIC_BE : Nat := 0xA1B2C3D4
def PCAP_MAGIC_LE : Nat := 0xD4C3B2A1
def PCAPNS_MAGIC_BE : Nat := 0xA1B23C4D
def PCAPNS_MAGIC_LE : Nat := 0x4DC3B2A1
def PCAPNG_MAGIC : Nat := 0x0A0D0D0A
def PCAPNG_ORDER_BE : Nat := 0x1A2B3C4D
def PCAPNG_ORDER_LE : Nat := 0x4D3C2B1A

def PCAPNG_SECTION_HEADER : Nat := 0x0A0D0D0A
def PCAPNG_INTERFACE_DESC : Nat := 0x00000001
def PCAPNG_OBSOLETE_PACKET : Nat := 0x00000002
def PCAPNG_SIMPLE_PACKET : Nat := 0x00000003
def PCAPNG_ENHANCED_PACKET : Nat := 0x00000006

def PCAPNG_IF_TSRESOL : Nat := 9
def PCAPNG_IF_FCSLEN : Nat := 13
def PCAPNG_IF_TSOFFSET : Nat := 14

def LINKTYPE_NULL : Nat := 0
def LINKTYPE_ETHERNET : Nat := 1
def LINKTYPE_RAW : Nat := 101
def LINKTYPE_LOOP : Nat := 108
def LINKTYPE_UNKNOWN : Nat := 0xFFFF

def ETHERTYPE_NULL : Nat := 0x0000
def ETHERTYPE_IPv4 : Nat := 0x0800
def ETHERTYPE_802_1Q : Nat := 0x8100
def ETHERTYPE_IPv6 : Nat := 0x86DD
def ETHERTYPE_802_1AD : Nat := 0x88A8
def ETHERTYPE_802_1AH : Nat := 0x88E7

/-- `IPv4_VERSION` / `IPv6_VERSION` (tsIP.h, not under the analyzed
sources): the IP version numbers, 4 and 6. -/
def IPv4_VERSION : Nat := 4

/-- See `IPv4_VERSION`. -/
def IPv6_VERSION : Nat := 6

def PCAPNG_BSD_IPv4 : Nat := 2
def PCAPNG_BSD_IPv6_24 : Nat := 24
def PCAPNG_BSD_IPv6_28 : Nat := 28
def PCAPNG_BSD_IPv6_30 : Nat := 30
def PCAPNG_BSD_UNKNOWN : Nat := 0xFFFFFFFF

def ETHER_HEADER_SIZE : Nat := 14
def ETHER_TYPE_OFFSET : Nat := 12

def IP_SUBPROTO_TCP : Nat := 6
def IP_SUBPROTO_UDP : Nat := 17

/-! ### Byte extraction (tsMemory.h readers and `PcapFile::get16/get32/get64`) -/

def getUInt16BE (b : List Nat) (i : Nat) : Nat :=
  256 * b.getD i 0 + b.getD (i + 1) 0

def getUInt16LE (b : List Nat) (i : Nat) : Nat :=
  b.getD i 0 + 256 * b.getD (i + 1) 0

def getUInt24BE (b : List Nat) (i : Nat) : Nat :=
  65536 * b.getD i 0 + 256 * b.getD (i + 1) 0 + b.getD (i + 2) 0

def getUInt32BE (b : List Nat) (i : Nat) : Nat :=
  16777216 * b.getD i 0 + 65536 * b.getD (i + 1) 0 + 256 * b.getD (i + 2) 0 + b.getD (i + 3) 0

def getUInt32LE (b : List Nat) (i : Nat) : Nat :=
  b.getD i 0 + 256 * b.getD (i + 1) 0 + 65536 * b.getD (i + 2) 0 + 16777216 * b.getD (i + 3) 0

def getUInt64BE (b : List Nat) (i : Nat) : Nat :=
  4294967296 * getUInt32BE b i + getUInt32BE b (i + 4)

def getUInt64LE (b : List Nat) (i : Nat) : Nat :=
  getUInt32LE b i + 4294967296 * getUInt32LE b (i + 4)

/-- `PcapFile::get16`: endian-selected 16-bit read. -/
def get16 (be : Bool) (b : List Nat) (i : Nat) : Nat :=
  if be then getUInt16BE b i else getUInt16LE b i

/-- `PcapFile::get32`: endian-selected 32-bit read. -/
def get32 (be : Bool) (b : List Nat) (i : Nat) : Nat :=
  if be then getUInt32BE b i else getUInt32LE b i

/-- `PcapFile::get64`: endian-selected 64-bit read. -/
def get64 (be : Bool) (b : List Nat) (i : Nat) : Nat :=
  if be then getUInt64BE b i else getUInt64LE b i

/-- Two's-complement reinterpretation of an unsigned 64-bit value as signed
(the `intmax_t` / `cn::seconds::rep` conversions in the source). -/
def toSigned64 (v : Nat) : Int :=
  if v < 2 ^ 63 then (v : Int) else (v : Int) - 2 ^ 64

/-! ### Exact-length reads (`PcapFile::readall`) -/

/-- `PcapFile::readall`: read exactly `n` bytes from the stream, `none` if the
stream ends first. -/
def readall (n : Nat) (s : List Nat) : Option (List Nat × List Nat) :=
  if n ≤ s.length then some (s.take n, s.drop n) else none

/-! ### Data model -/

/-- `PcapFile::InterfaceDesc`: one capture interface.  `time_offset` is kept
in microseconds (the `cn::microseconds` member), `time_units` in ticks per
second. -/
structure InterfaceDesc where
  link_type : Nat := LINKTYPE_UNKNOWN
  fcs_size : Nat := 0
  time_units : Int := 0
  time_offset : Int := 0
deriving DecidableEq, Repr, Inhabited

/-- The mutable state of a `PcapFile` (stream position excluded: the model
passes the remaining input explicitly). -/
structure PcapState where
  error : Bool := false
  be : Bool := false
  ng : Bool := false
  major : Nat := 0
  minor : Nat := 0
  packet_count : Nat := 0
  ip_packet_count : Nat := 0
  packets_size : Nat := 0
  ip_packets_size : Nat := 0
  first_timestamp : Int := -1
  last_timestamp : Int := -1
  interfaces : List InterfaceDesc := []
deriving DecidableEq, Repr, Inhabited

/-- Error kinds, one per distinct error message of the source. -/
inductive PcapErr where
  | unknownMagic
  | badByteOrder
  | badBlockLength
  | corruptOptionList
  | badInterfaceDesc
  | truncatedSectionHeader
  | shortRead
deriving DecidableEq, Repr

deriving instance DecidableEq for Except

/-! ### Pcap-ng block reader (`PcapFile::readNgBlockBody`) -/

/-- Tail of `PcapFile::readNgBlockBody` after the leading length field (and,
for a Section Header block, the 4-byte byte-order magic) has been read:
interpret the length, read the rest of the body and the trailing length.
`body0` holds the body bytes already read (the byte-order magic). -/
def finishNgBlock (be : Bool) (lenfield body0 s : List Nat) :
    Except PcapErr (List Nat × Bool × List Nat) :=
  let size := get32 be lenfield 0
  if size % 4 ≠ 0 ∨ size < 12 + body0.length then .error .badBlockLength
  else
    match readall (size - 12 - body0.length) s with
    | none => .error .shortRead
    | some (restbody, s2) =>
      match readall 4 s2 with
      | none => .error .shortRead
      | some (lenfield2, s3) =>
        let last_size := get32 be lenfield2 0
        if size ≠ last_size then .error .badBlockLength
        else .ok (body0 ++ restbody, be, s3)

/-- `PcapFile::readNgBlockBody`: the 32-bit block type has already been
consumed.  Returns the block body, the (possibly updated) endianness and the
remaining stream. -/
def readNgBlockBody (be : Bool) (block_type : Nat) (s : List Nat) :
    Except PcapErr (List Nat × Bool × List Nat) :=
  match readall 4 s with
  | none => .error .shortRead
  | some (lenfield, s1) =>
    if block_type = PCAPNG_SECTION_HEADER then
      match readall 4 s1 with
      | none => .error .shortRead
      | some (magicBytes, s2) =>
        let order_magic := getUInt32BE magicBytes 0
        if order_magic ≠ PCAPNG_ORDER_BE ∧ order_magic ≠ PCAPNG_ORDER_LE then
          .error .badByteOrder
        else
          finishNgBlock (order_magic = PCAPNG_ORDER_BE) lenfield magicBytes s2
    else
      finishNgBlock be lenfield [] s1

/-! ### Interface description analysis (`PcapFile::analyzeNgInterface`) -/

/-- `round_up<uint16_t>(len, 4)`: next multiple of 4, computed in `uint16_t`
(hence reduced modulo `2^16`). -/
def roundUp4U16 (len : Nat) : Nat :=
  (4 * ((len + 3) / 4)) % 65536

/-- The option-list loop of `PcapFile::analyzeNgInterface`: walk the TLV
options of an Interface Description block, updating the interface under
construction.  `opts` is the remaining slice of the block body. -/
def parseIfOptions (be : Bool) (ifd : InterfaceDesc) (opts : List Nat) :
    Except PcapErr InterfaceDesc :=
  if _h : 4 ≤ opts.length then
    let tag := get16 be opts 0
    let len := get16 be opts 2
    let rest := opts.drop 4
    if len > rest.length then .error .corruptOptionList
    else
      let ifd :=
        if tag = PCAPNG_IF_FCSLEN ∧ len = 1 then
          { ifd with fcs_size := rest.getD 0 0 }
        else if tag = PCAPNG_IF_TSOFFSET ∧ len = 8 then
          { ifd with time_offset := toSigned64 (get64 be rest 0) * 1000000 }
        else if tag = PCAPNG_IF_TSRESOL ∧ len = 1 then
          if rest.getD 0 0 &&& 0x80 = 0 then
            { ifd with time_units := (10 : Int) ^ (rest.getD 0 0) }
          else
            { ifd with time_units := (2 : Int) ^ (rest.getD 0 0 &&& 0x7F) }
        else ifd
      parseIfOptions be ifd (rest.drop (roundUp4U16 len))
  else .ok ifd
termination_by opts.length
decreasing_by
  simp only [List.length_drop]
  omega

/-- `PcapFile::analyzeNgInterface`: build an `InterfaceDesc` from the body of
an Interface Description block.  The options start at offset 8. -/
def analyzeNgInterface (be : Bool) (data : List Nat) :
    Except PcapErr InterfaceDesc :=
  if data.length < 8 then .error .badInterfaceDesc
  else
    parseIfOptions be
      { link_type := get16 be data 0, time_units := 1000000 }
      (data.drop 8)

/-! ### Header decoding (`PcapFile::readHeader`) -/

/-- The FCS size computation of the legacy pcap header
(`tsPcapFile.cpp:146`): bit `0x10` of header byte 16 gates the field, whose
value is the 3-bit field at bits 5..7, doubled. -/
def pcapFcsSize (b : Nat) : Nat :=
  if b &&& 0x10 = 0 then 0 else 2 * ((b >>> 5) &&& 0x07)

/-- `PcapFile::readHeader`: decode the file or section header once the 4-byte
magic has been read (as big-endian). -/
def readHeader (magic : Nat) (st : PcapState) (s : List Nat) :
    Except PcapErr (PcapState × List Nat) :=
  if magic = PCAP_MAGIC_BE ∨ magic = PCAP_MAGIC_LE ∨
     magic = PCAPNS_MAGIC_BE ∨ magic = PCAPNS_MAGIC_LE then
    match readall 20 s with
    | none => .error .shortRead
    | some (header, s1) =>
      let be := magic = PCAP_MAGIC_BE ∨ magic = PCAPNS_MAGIC_BE
      let ifd : InterfaceDesc :=
        { link_type := get16 be header 18,
          time_units := if magic = PCAP_MAGIC_BE ∨ magic = PCAP_MAGIC_LE
                        then 1000000 else 1000000000,
          fcs_size := pcapFcsSize (header.getD 16 0),
          time_offset := 0 }
      .ok ({ st with ng := false, be := be,
                     major := get16 be header 0, minor := get16 be header 2,
                     interfaces := [ifd] }, s1)
  else if magic = PCAPNG_MAGIC then
    match readNgBlockBody st.be magic s with
    | .error e => .error e
    | .ok (header, be2, s1) =>
      if header.length < 16 then .error .truncatedSectionHeader
      else
        .ok ({ st with ng := true, be := be2,
                       major := get16 be2 header 4, minor := get16 be2 header 6,
                       interfaces := [] }, s1)
  else .error .unknownMagic

/-- `PcapFile::open` (read side): reset the counters and the error flag, then
read the 4-byte magic and the header.  `prev` is the state left over from any
previous use of the object. -/
def openModel (prev : PcapState) (s : List Nat) :
    Except PcapErr (PcapState × List Nat) :=
  let st := { prev with error := false,
                        packet_count := 0, ip_packet_count := 0,
                        packets_size := 0, ip_packets_size := 0,
                        first_timestamp := -1, last_timestamp := -1 }
  match readall 4 s with
  | none => .error .shortRead
  | some (magic, s1) => readHeader (getUInt32BE magic 0) st s1

/-! ### Packets, addresses, VLAN tags -/

/-- An IP socket address: optional address, optional port (unset fields act
as wildcards). -/
structure SockAddr where
  addr : Option Nat := none
  port : Option Nat := none
deriving DecidableEq, Repr, Inhabited

/-- Modelled from the spec: `IPSocketAddress::match` (class not under the
analyzed sources) — each field matches if it is unset on either side
("wildcard if unset") or equal on both. -/
def SockAddr.smatch (a b : SockAddr) : Bool :=
  (a.addr.isNone ∨ b.addr.isNone ∨ a.addr = b.addr) ∧
  (a.port.isNone ∨ b.port.isNone ∨ a.port = b.port)

/-- The opaque `IPPacket` produced by the black-box parser: source and
destination socket addresses, IP sub-protocol, sizes. -/
structure IpPkt where
  source : SockAddr := {}
  destination : SockAddr := {}
  protocol : Nat := 0
  size : Nat := 0
  protocol_data_size : Nat := 0
deriving DecidableEq, Repr, Inhabited

/-- One VLAN encapsulation tag: the EtherType following the tag and the
12-bit VLAN id (`ts::VLANId`). -/
structure VLANId where
  type : Nat
  id : Nat
deriving DecidableEq, Repr, Inhabited

/-- The two opaque external dependencies of the reader:
`ip_parse` is `IPPacket::reset` (the black-box IP datagram decoder, `some`
on a valid datagram), `dbl_div` is the double-precision computation
`rep((double(t) * double(1e6)) / double(u))` of the overflow fallback in the
timestamp conversion. -/
structure Oracle where
  ip_parse : List Nat → Option IpPkt
  dbl_div : Int → Int → Int

/-! ### Timestamps -/

/-- `PcapFile::timeOffset` (tsPcapFile.h:139-142): offset of `ts` from
`first` (the `_first_timestamp` member); `0` when either is unset
(negative). -/
def timeOffset (first ts : Int) : Int :=
  if ts < 0 ∨ first < 0 then 0 else ts - first

/-- Lines 423-429 of `PcapFile::readIP`: apply the interface time offset to
a non-negative timestamp and update `_first_timestamp` (only if unset) and
`_last_timestamp`.  Returns the new state and the adjusted timestamp. -/
def updateTimestamps (st : PcapState) (tofs ts : Int) : PcapState × Int :=
  if 0 ≤ ts then
    let ts2 := ts + tofs
    ({ st with
        first_timestamp := if st.first_timestamp < 0 then ts2 else st.first_timestamp,
        last_timestamp := ts2 }, ts2)
  else (st, ts)

/-- `mul_overflow(t, 1000000, ...)`: the signed 64-bit product overflows. -/
def mulOverflow64 (t : Int) : Prop :=
  t * 1000000 < -(2 ^ 63) ∨ 2 ^ 63 ≤ t * 1000000

instance (t : Int) : Decidable (mulOverflow64 t) := by
  unfold mulOverflow64; infer_instance

/-- Lines 359-373 of `PcapFile::readIP`: convert a raw 64-bit tick count
`tstamp` at `units` ticks per second into microseconds, avoiding 64-bit
overflow.  `dbl_div` is the double-precision fallback. -/
def convertTimestamp (dbl_div : Int → Int → Int) (units tstamp : Int) : Int :=
  if units = 1000000 then tstamp
  else if units > 1000000 ∧ Int.tmod units 1000000 = 0 then
    Int.tdiv tstamp (Int.tdiv units 1000000)
  else if units < 1000000 ∧ Int.tmod 1000000 units = 0 then
    tstamp * Int.tdiv 1000000 units
  else if mulOverflow64 tstamp then dbl_div tstamp units
  else Int.tdiv (tstamp * 1000000) units

/-- Lines 354-374 of `PcapFile::readIP`: the timestamp of an Enhanced or
Obsolete packet block: `raw` is the 64-bit tick count (high 32 bits at body
offset 4, low 32 bits at offset 8, reinterpreted as signed); the conversion
uses the referenced interface, `-1` (no timestamp) if the interface is
unknown or its `time_units` is 0. -/
def ngPacketTimestamp (dbl_div : Int → Int → Int) (ifaces : List InterfaceDesc)
    (if_index : Nat) (raw : Nat) : Int :=
  if if_index < ifaces.length ∧ (ifaces.getD if_index {}).time_units ≠ 0 then
    convertTimestamp dbl_div (ifaces.getD if_index {}).time_units (toSigned64 raw)
  else -1

/-! ### VLAN decapsulation (lines 466-489 of `PcapFile::readIP`) -/

/-- The VLAN unwrapping loop: starting from EtherType `et` at buffer index
`cap_start` with `cap_size` bytes remaining, strip 802.1Q / 802.1ad (4-byte)
and 802.1ah (18-byte) tags, pushing `{next EtherType, 12-bit id}` for each,
until the EtherType is IPv4 or IPv6, the size reaches 0, or the tag is
unknown or truncated (which zeroes the size).  Returns the final EtherType,
start, size and VLAN stack. -/
def unwrapVlans (buf : List Nat) (et cap_start cap_size : Nat) (vlans : List VLANId) :
    Nat × Nat × Nat × List VLANId :=
  if et ≠ ETHERTYPE_IPv4 ∧ et ≠ ETHERTYPE_IPv6 ∧ 0 < cap_size then
    if (et = ETHERTYPE_802_1Q ∨ et = ETHERTYPE_802_1AD) ∧ 4 ≤ cap_size then
      let et2 := getUInt16BE buf (cap_start + 2)
      unwrapVlans buf et2 (cap_start + 4) (cap_size - 4)
        (vlans ++ [⟨et2, getUInt16BE buf cap_start &&& 0x0FFF⟩])
    else if et = ETHERTYPE_802_1AH ∧ 18 ≤ cap_size then
      let et2 := getUInt16BE buf (cap_start + 16)
      unwrapVlans buf et2 (cap_start + 18) (cap_size - 18)
        (vlans ++ [⟨et2, getUInt24BE buf (cap_start + 1) &&& 0x0FFF⟩])
    else (et, cap_start, 0, vlans)
  else (et, cap_start, cap_size, vlans)
termination_by cap_size
decreasing_by all_goals omega

/-! ### The block/packet driver (`PcapFile::readIP`) -/

/-- Result of one iteration of the `for (;;)` loop of `PcapFile::readIP`. -/
inductive Step where
  | fail (st : PcapState) (s : List Nat)
  | yield (st : PcapState) (s : List Nat) (pkt : IpPkt) (vlans : List VLANId) (ts : Int)
  | cont (st : PcapState) (s : List Nat)
deriving DecidableEq, Repr

/-- Result of the block-parsing stage of one loop iteration (everything
before line 411): an error, a metadata block (`skip`), or a captured record
with its buffer, capture window, original size, interface and raw
timestamp. -/
inductive ParseResult where
  | fail (st : PcapState) (s : List Nat)
  | skip (st : PcapState) (s : List Nat)
  | record (st : PcapState) (s : List Nat) (buffer : List Nat)
           (cap_start cap_size orig_size if_index : Nat) (timestamp : Int)
deriving DecidableEq, Repr

/-- Lines 504-514 of `PcapFile::readIP`: attempt `IPPacket::reset` on the
capture window; on success count the IP packet and yield it, otherwise (or
when the window is empty) continue with the next block. -/
def tryIp (o : Oracle) (st : PcapState) (s buffer : List Nat)
    (cap_start cap_size : Nat) (vlans : List VLANId) (ts : Int) : Step :=
  if 0 < cap_size then
    match o.ip_parse ((buffer.drop cap_start).take cap_size) with
    | some pkt =>
      .yield { st with ip_packet_count := st.ip_packet_count + 1,
                       ip_packets_size := st.ip_packets_size + cap_size }
        s pkt vlans ts
    | none => .cont st s
  else .cont st s

/-- Lines 411-514 of `PcapFile::readIP`: process a captured record — count
its size, skip it if truncated, adjust the timestamp, strip the link-layer
encapsulation (BSD loopback word, Ethernet header and VLAN tags, or raw IP)
and try to extract an IP datagram. -/
def processCaptured (o : Oracle) (st0 : PcapState) (s buffer : List Nat)
    (cap_start cap_size orig_size if_index : Nat) (ts0 : Int) : Step :=
  let st1 := { st0 with packets_size := st0.packets_size + cap_size }
  if cap_size < orig_size then .cont st1 s
  else
    let ifd := st1.interfaces.getD if_index {}
    let stts := updateTimestamps st1 ifd.time_offset ts0
    let st := stts.1
    let ts := stts.2
    let bsd_proto :=
      if 4 ≤ cap_size then
        if ifd.link_type = LINKTYPE_NULL then get32 st.be buffer cap_start
        else if ifd.link_type = LINKTYPE_LOOP then getUInt32BE buffer cap_start
        else PCAPNG_BSD_UNKNOWN
      else PCAPNG_BSD_UNKNOWN
    if bsd_proto = PCAPNG_BSD_IPv4 ∨ bsd_proto = PCAPNG_BSD_IPv6_24 ∨
       bsd_proto = PCAPNG_BSD_IPv6_28 ∨ bsd_proto = PCAPNG_BSD_IPv6_30 then
      tryIp o st s buffer (cap_start + 4) (cap_size - 4) [] ts
    else if (ifd.link_type = LINKTYPE_ETHERNET ∨ ifd.link_type = LINKTYPE_NULL ∨
             ifd.link_type = LINKTYPE_LOOP) ∧
            ETHER_HEADER_SIZE + ifd.fcs_size < cap_size then
      let et := getUInt16BE buffer (cap_start + ETHER_TYPE_OFFSET)
      let r := unwrapVlans buffer et (cap_start + ETHER_HEADER_SIZE)
                 (cap_size - (ETHER_HEADER_SIZE + ifd.fcs_size)) []
      tryIp o st s buffer r.2.1 r.2.2.1 r.2.2.2 ts
    else if ifd.link_type = LINKTYPE_RAW ∧ 1 ≤ cap_size then
      -- tsPcapFile.cpp:493-497: the whole first byte is compared to the
      -- version constants.
      if buffer.getD cap_start 0 ≠ IPv4_VERSION ∧ buffer.getD cap_start 0 ≠ IPv6_VERSION then
        tryIp o st s buffer cap_start 0 [] ts
      else
        tryIp o st s buffer cap_start cap_size [] ts
    else
      tryIp o st s buffer cap_start 0 [] ts

/-- Lines 322-409 of `PcapFile::readIP`: the block-parsing stage of one loop
iteration.  For pcap-ng, read and dispatch on the block type; for legacy
pcap, read one record header and its data. -/
def parseBlock (o : Oracle) (st : PcapState) (s : List Nat) : ParseResult :=
  if st.ng then
    match readall 4 s with
    | none => .fail { st with error := true } s
    | some (type_field, s1) =>
      let btype := get32 st.be type_field 0
      if btype = PCAPNG_SECTION_HEADER then
        match readHeader btype st s1 with
        | .error _ => .fail { st with error := true } s1
        | .ok (st2, s2) => .skip st2 s2
      else
        match readNgBlockBody st.be btype s1 with
        | .error _ => .fail { st with error := true } s1
        | .ok (buffer, _, s2) =>
          if btype = PCAPNG_INTERFACE_DESC then
            match analyzeNgInterface st.be buffer with
            | .error _ => .fail { st with error := true } s2
            | .ok ifd => .skip { st with interfaces := st.interfaces ++ [ifd] } s2
          else if (btype = PCAPNG_ENHANCED_PACKET ∨ btype = PCAPNG_OBSOLETE_PACKET) ∧
                  20 ≤ buffer.length then
            let st2 := { st with packet_count := st.packet_count + 1 }
            let cap_size := min (get32 st.be buffer 12) (buffer.length - 20)
            let orig_size := get32 st.be buffer 16
            let if_index := if btype = PCAPNG_OBSOLETE_PACKET
                            then get16 st.be buffer 0 else get32 st.be buffer 0
            let raw := get32 st.be buffer 4 * 4294967296 + get32 st.be buffer 8
            let ts := ngPacketTimestamp o.dbl_div st.interfaces if_index raw
            .record st2 s2 buffer 20 cap_size orig_size if_index ts
          else if btype = PCAPNG_SIMPLE_PACKET ∧ 4 ≤ buffer.length then
            let st2 := { st with packet_count := st.packet_count + 1 }
            let orig_size := get32 st.be buffer 0
            let cap_size := min orig_size (buffer.length - 4)
            .record st2 s2 buffer 4 cap_size orig_size 0 (-1)
          else
            .skip st s2
  else
    let st2 := { st with packet_count := st.packet_count + 1 }
    match readall 16 s with
    | none => .fail { st2 with error := true } s
    | some (header, s1) =>
      let tstamp := get32 st.be header 0
      let sub_tstamp := get32 st.be header 4
      let cap_size := get32 st.be header 8
      let orig_size := get32 st.be header 12
      let units := (st.interfaces.getD 0 {}).time_units
      let ts : Int :=
        if units < 0 then -1
        else (tstamp : Int) * 1000000 + Int.tdiv ((sub_tstamp : Int) * 1000000) units
      match readall cap_size s1 with
      | none => .fail { st2 with error := true } s1
      | some (buffer, s2) => .record st2 s2 buffer 0 cap_size orig_size 0 ts

/-- One iteration of the `for (;;)` loop of `PcapFile::readIP`. -/
def readIPStep (o : Oracle) (st : PcapState) (s : List Nat) : Step :=
  match parseBlock o st s with
  | .fail st2 s2 => .fail st2 s2
  | .skip st2 s2 => .cont st2 s2
  | .record st2 s2 buffer cap_start cap_size orig_size if_index ts =>
    processCaptured o st2 s2 buffer cap_start cap_size orig_size if_index ts

/-- The outcome of one `PcapFile::readIP` call: success flag, final state,
remaining input, and the extracted packet with its VLAN stack and timestamp
on success. -/
structure ReadResult where
  ok : Bool
  st : PcapState
  rest : List Nat
  packet : Option (IpPkt × List VLANId × Int)
deriving DecidableEq, Repr

/-- The `for (;;)` loop of `PcapFile::readIP`, with explicit fuel (each
iteration consumes input, so any fuel bound at least the stream length is
enough). -/
def readIPLoop (o : Oracle) : Nat → PcapState → List Nat → ReadResult
  | 0, st, s => ⟨false, st, s, none⟩
  | fuel + 1, st, s =>
    match readIPStep o st s with
    | .fail st2 s2 => ⟨false, st2, s2, none⟩
    | .yield st2 s2 pkt vlans ts => ⟨true, st2, s2, some (pkt, vlans, ts)⟩
    | .cont st2 s2 => readIPLoop o fuel st2 s2

/-- `PcapFile::readIP`: fail immediately (without reading) when the error
flag is latched, otherwise iterate over the blocks. -/
def readIP (o : Oracle) (fuel : Nat) (st : PcapState) (s : List Nat) : ReadResult :=
  if st.error then ⟨false, st, s, none⟩ else readIPLoop o fuel st s

/-! ### The filter stage (`PcapFilter`, tsPcapFilter.cpp) -/

/-- Modelled from the spec: `VLANIdStack::match` (class not under the
analyzed sources) — for each expected id in order, some tag with that id
exists at or after the current outer-to-inner cursor (subsequence match on
VLAN ids; an empty expectation matches everything). -/
def vlanStackMatch : List VLANId → List VLANId → Bool
  | _, [] => true
  | [], _ :: _ => false
  | t :: ts, e :: es =>
    if t.id = e.id then vlanStackMatch ts es else vlanStackMatch ts (e :: es)

/-- The filtering state of a `PcapFilter`: the effective filters installed at
`open()` time plus the configured VLAN list (`_opt_vlans`, used directly by
`readIP`). -/
structure FilterState where
  protocols : List Nat := []
  source : SockAddr := {}
  destination : SockAddr := {}
  bidirectional_filter : Bool := false
  wildcard_filter : Bool := true
  first_packet : Nat := 0
  last_packet : Nat := 18446744073709551615
  first_time_offset : Int := 0
  last_time_offset : Int := 9223372036854775807
  first_time : Int := 0
  last_time : Int := 9223372036854775807
  opt_vlans : List VLANId := []
deriving DecidableEq, Repr, Inhabited

/-- The `_opt_*` values produced by `PcapFilter::loadArgs`, copied into the
effective filter by `PcapFilter::open`. -/
structure FilterOptions where
  first_packet : Nat := 0
  last_packet : Nat := 18446744073709551615
  first_time_offset : Int := 0
  last_time_offset : Int := 9223372036854775807
  first_time : Int := 0
  last_time : Int := 9223372036854775807
  vlans : List VLANId := []
deriving DecidableEq, Repr, Inhabited

/-- `PcapFilter::getDate`: decode a date option into microseconds since the
Unix epoch.  The external date decoding is abstracted: `decoded` is `none`
when the option is absent or does not parse, otherwise the decoded date in
milliseconds relative to the Unix epoch (negative for an earlier date, which
the source rejects).  On any failure the default is returned. -/
def getDateModel (decoded : Option Int) (def_value : Int) : Int :=
  match decoded with
  | none => def_value
  | some ms => if ms < 0 then def_value else ms * 1000

/-- `PcapFilter::loadArgs`: collect the option values, with the source's
defaults (0 or the maxima) for absent options.  `first_date` / `last_date`
are the abstracted decoded dates as in `getDateModel`; `vlan_ids` the
repeatable `vlan-id` values. -/
def loadArgs (first_packet last_packet : Option Nat)
    (first_time_offset last_time_offset : Option Int)
    (first_date last_date : Option Int) (vlan_ids : List Nat) : FilterOptions :=
  { first_packet := first_packet.getD 0,
    last_packet := last_packet.getD 18446744073709551615,
    first_time_offset := first_time_offset.getD 0,
    last_time_offset := last_time_offset.getD 9223372036854775807,
    first_time := getDateModel first_date 0,
    last_time := getDateModel last_date 9223372036854775807,
    vlans := vlan_ids.map (fun id => ⟨ETHERTYPE_NULL, id⟩) }

/-- `PcapFilter::open` (lines 193-204): on a successful underlying open,
reinitialize the filters — protocols and learned addresses cleared, wildcard
allowed again, windows reloaded from the options. -/
def filterOpenReset (opts : FilterOptions) (fs : FilterState) : FilterState :=
  { fs with protocols := [], source := {}, destination := {},
            bidirectional_filter := false, wildcard_filter := true,
            first_packet := opts.first_packet, last_packet := opts.last_packet,
            first_time_offset := opts.first_time_offset,
            last_time_offset := opts.last_time_offset,
            first_time := opts.first_time, last_time := opts.last_time,
            opt_vlans := opts.vlans }

/-- `PcapFilter::addressFilterIsSet` (lines 161-168). -/
def addressFilterIsSet (fs : FilterState) : Bool :=
  let use_port := fs.protocols = [] ∨ fs.protocols.contains IP_SUBPROTO_TCP ∨
                  fs.protocols.contains IP_SUBPROTO_UDP
  fs.source.addr.isSome ∧ (¬use_port ∨ fs.source.port.isSome) ∧
  fs.destination.addr.isSome ∧ (¬use_port ∨ fs.destination.port.isSome)

/-- One candidate delivered by the superclass `PcapFile::readIP` inside
`PcapFilter::readIP`, together with the `PcapFile` observables the filter
consults at that point: `packet_count` is `packetCount()` after the packet
was read, `first_ts` the `_first_timestamp` used by `timeOffset`. -/
structure Candidate where
  packet : IpPkt
  vlans : List VLANId
  timestamp : Int
  packet_count : Nat
  first_ts : Int
deriving DecidableEq, Repr, Inhabited

/-- Decision of `PcapFilter::readIP` on one candidate: terminate iteration
(`stop`), drop the packet and read on (`skip`), or return it (`accept`). -/
inductive FilterDecision where
  | stop (fs : FilterState)
  | skip (fs : FilterState)
  | accept (fs : FilterState)
deriving DecidableEq, Repr

/-- The loop body of `PcapFilter::readIP` (lines 217-275). -/
def filterStep (fs : FilterState) (c : Candidate) : FilterDecision :=
  if c.packet_count > fs.last_packet ∨ c.timestamp > fs.last_time ∨
     timeOffset c.first_ts c.timestamp > fs.last_time_offset then
    .stop fs
  else if (fs.protocols ≠ [] ∧ ¬fs.protocols.contains c.packet.protocol) ∨
          c.packet_count < fs.first_packet ∨
          c.timestamp < fs.first_time ∨
          timeOffset c.first_ts c.timestamp < fs.first_time_offset ∨
          ¬vlanStackMatch c.vlans fs.opt_vlans then
    .skip fs
  else
    let src := c.packet.source
    let dst := c.packet.destination
    let unspecified := ¬fs.wildcard_filter ∧ ¬addressFilterIsSet fs
    if src.smatch fs.source ∧ dst.smatch fs.destination then
      .accept (if unspecified then { fs with source := src, destination := dst } else fs)
    else if fs.bidirectional_filter ∧ src.smatch fs.destination ∧ dst.smatch fs.source then
      .accept (if unspecified then { fs with source := dst, destination := src } else fs)
    else
      .skip fs

/-- `PcapFilter::readIP` over a sequence of candidates produced by the
superclass: iterate `filterStep` until a candidate is accepted (returned) or
the iteration stops.  Returns the final filter state and the accepted
candidate, if any. -/
def filterRun (fs : FilterState) : List Candidate → FilterState × Option Candidate
  | [] => (fs, none)
  | c :: cs =>
    match filterStep fs c with
    | .stop fs2 => (fs2, none)
    | .skip fs2 => filterRun fs2 cs
    | .accept fs2 => (fs2, some c)

/-! ### Concrete oracles and test vectors used by the theorems -/

/-- Oracle whose IP parser rejects everything (the IP decoder is irrelevant
to the fact being checked). -/
def oracleNone : Oracle := ⟨fun _ => none, fun _ _ => 0⟩

/-- Oracle whose IP parser accepts everything, returning the default packet. -/
def oracleSome : Oracle := ⟨fun _ => some {}, fun _ _ => 0⟩

/-- The VLAN stack of a step result (empty unless a packet is yielded). -/
def Step.vlansOf : Step → List VLANId
  | .yield _ _ _ vlans _ => vlans
  | _ => []

/-- The timestamp of a step result (`-1` unless a packet is yielded). -/
def Step.tsOf : Step → Int
  | .yield _ _ _ _ ts => ts
  | _ => -1

/-! ### C2: `timeOffset` -/

/-- C2, counterexample: with `_first_timestamp = 10` and `ts = 5`, the claim
predicts `timeOffset = max(0, 5 - 10) = 0`, but the code returns `-5`,
which is negative. -/
theorem C2_counterexample :
    timeOffset 10 5 = -5 ∧ max 0 (5 - 10 : Int) = 0 ∧ timeOffset 10 5 < 0 := by
  decide

/-- C2, amended: `timeOffset(ts) = ts - first_timestamp` when both `ts` and
`first_timestamp` are non-negative (which may be negative when
`ts < first_timestamp`), and `0` when either is unset (negative); it agrees
with `max(0, ts - first_timestamp)` whenever `first_timestamp` is set and
`ts ≥ first_timestamp`, and is non-negative whenever `first_timestamp ≤ ts`. -/
theorem C2_amended :
    (∀ first ts : Int, 0 ≤ first → 0 ≤ ts → timeOffset first ts = ts - first) ∧
    (∀ first ts : Int, ts < 0 ∨ first < 0 → timeOffset first ts = 0) ∧
    (∀ first ts : Int, 0 ≤ first → first ≤ ts →
       timeOffset first ts = max 0 (ts - first)) ∧
    (∀ first ts : Int, first ≤ ts → 0 ≤ timeOffset first ts) := by
  refine ⟨?_, ?_, ?_, ?_⟩ <;> intros <;>
    simp only [timeOffset, max_def] <;> split_ifs <;> omega

/-! ### C4: pcap-ng timestamp conversion -/

/-- C4: the Enhanced/Obsolete packet timestamp is computed by the first
applicable case, in order: pass-through when `units = 10^6`; division by
`units / 10^6` when `units` is a larger multiple of `10^6`; multiplication
by `10^6 / units` when `units` is a smaller divisor of `10^6`; the
double-precision value when `t * 10^6` overflows signed 64-bit; the exact
integer `(t * 10^6) / units` otherwise.  A zero `time_units` gives no
timestamp (-1).  At `units = 10^9` and raw tick count
`1234567890123456789` the result is `1234567890123456` microseconds. -/
theorem C4_timestamp_conversion :
    (∀ (dbl : Int → Int → Int) (u t : Int),
      (u = 1000000 → convertTimestamp dbl u t = t) ∧
      (1000000 < u → Int.tmod u 1000000 = 0 →
         convertTimestamp dbl u t = Int.tdiv t (Int.tdiv u 1000000)) ∧
      (u < 1000000 → Int.tmod 1000000 u = 0 →
         convertTimestamp dbl u t = t * Int.tdiv 1000000 u) ∧
      (u ≠ 1000000 → ¬(1000000 < u ∧ Int.tmod u 1000000 = 0) →
       ¬(u < 1000000 ∧ Int.tmod 1000000 u = 0) → mulOverflow64 t →
         convertTimestamp dbl u t = dbl t u) ∧
      (u ≠ 1000000 → ¬(1000000 < u ∧ Int.tmod u 1000000 = 0) →
       ¬(u < 1000000 ∧ Int.tmod 1000000 u = 0) → ¬mulOverflow64 t →
         convertTimestamp dbl u t = Int.tdiv (t * 1000000) u)) ∧
    (∀ (dbl : Int → Int → Int) (ifaces : List InterfaceDesc) (i : Nat) (raw : Nat),
      (i < ifaces.length → (ifaces.getD i {}).time_units ≠ 0 →
         ngPacketTimestamp dbl ifaces i raw =
           convertTimestamp dbl (ifaces.getD i {}).time_units (toSigned64 raw)) ∧
      ((ifaces.getD i {}).time_units = 0 → ngPacketTimestamp dbl ifaces i raw = -1)) ∧
    (∀ dbl : Int → Int → Int,
      convertTimestamp dbl 1000000000 1234567890123456789 = 1234567890123456) := by
  refine ⟨fun dbl u t => ⟨?_, ?_, ?_, ?_, ?_⟩, fun dbl ifaces i raw => ⟨?_, ?_⟩, ?_⟩
  · intro h1
    rw [convertTimestamp, if_pos h1]
  · intro hu hm
    rw [convertTimestamp, if_neg (by omega), if_pos ⟨hu, hm⟩]
  · intro hu hm
    rw [convertTimestamp, if_neg (by omega), if_neg (by rintro ⟨h, -⟩; omega),
        if_pos ⟨hu, hm⟩]
  · intro h1 h2 h3 hov
    rw [convertTimestamp, if_neg h1, if_neg h2, if_neg h3, if_pos hov]
  · intro h1 h2 h3 hov
    rw [convertTimestamp, if_neg h1, if_neg h2, if_neg h3, if_neg hov]
  · intro hi hu
    rw [ngPacketTimestamp, if_pos ⟨hi, hu⟩]
  · intro hu
    rw [ngPacketTimestamp, if_neg (by rintro ⟨-, hne⟩; exact hne hu)]
  · intro dbl
    have h2 : convertTimestamp dbl 1000000000 1234567890123456789 =
        Int.tdiv 1234567890123456789 (Int.tdiv 1000000000 1000000) := by
      rw [convertTimestamp, if_neg (by omega), if_pos ⟨by omega, by decide⟩]
    rw [h2]
    decide

/-! ### C8: legacy pcap FCS size -/

/-- C8, counterexample: with header byte 16 equal to `0xF0`, bit `0x10` is
set and the code computes `2 * ((0xF0 >> 5) & 7) = 14` — twice a 3-bit
field, not twice the value of a nibble of that byte (`2 * 15 = 30` for the
high nibble, `2 * 0 = 0` for the low one). -/
theorem C8_counterexample :
    pcapFcsSize 0xF0 = 14 ∧ 2 * ((0xF0 >>> 4) &&& 0x0F) = 30 ∧
    2 * (0xF0 &&& 0x0F) = 0 ∧
    (readHeader PCAP_MAGIC_BE {} (List.replicate 16 0 ++ [0xF0, 0, 0, 0])).map
      (fun p => p.1.interfaces.map (fun ifd => ifd.fcs_size)) = .ok [14] := by
  decide

/-- C8, amended: when opening a legacy pcap file, the single installed
interface's `fcs_size` is 0 if bit `0x10` of header byte 16 is clear, and
otherwise twice the value of the 3-bit field in bits 5..7 of that byte. -/
theorem C8_amended :
    (∀ b : Nat, b &&& 0x10 = 0 → pcapFcsSize b = 0) ∧
    (∀ b : Nat, b &&& 0x10 ≠ 0 → pcapFcsSize b = 2 * ((b >>> 5) &&& 0x07)) ∧
    (∀ (magic : Nat) (st : PcapState) (s : List Nat) (p : PcapState × List Nat),
       (magic = PCAP_MAGIC_BE ∨ magic = PCAP_MAGIC_LE ∨
        magic = PCAPNS_MAGIC_BE ∨ magic = PCAPNS_MAGIC_LE) →
       readHeader magic st s = .ok p →
       p.1.interfaces.map (fun ifd => ifd.fcs_size) =
         [pcapFcsSize ((s.take 20).getD 16 0)]) := by
  refine ⟨?_, ?_, ?_⟩
  · intro b h
    rw [pcapFcsSize, if_pos h]
  · intro b h
    rw [pcapFcsSize, if_neg h]
  · intro magic st s p hm h
    simp only [readHeader, if_pos hm] at h
    cases hr : readall 20 s with
    | none => rw [hr] at h; cases h
    | some pr =>
      obtain ⟨header, s1⟩ := pr
      rw [hr] at h
      cases h
      have hh : header = s.take 20 := by
        rw [readall] at hr
        split at hr
        · cases hr; rfl
        · cases hr
      subst hh
      simp

/-! ### C1: first and last timestamps -/

/-- A legacy big-endian pcap stream (magic `0xA1B2C3D4`, 20 zero header
bytes) with two empty records whose timestamps decrease: seconds 5, then
seconds 3. -/
def pcapStreamDecreasing : List Nat :=
  [0xA1, 0xB2, 0xC3, 0xD4] ++ List.replicate 20 0 ++
  ([0, 0, 0, 5] ++ [0, 0, 0, 0] ++ [0, 0, 0, 0] ++ [0, 0, 0, 0]) ++
  ([0, 0, 0, 3] ++ [0, 0, 0, 0] ++ [0, 0, 0, 0] ++ [0, 0, 0, 0])

/-- C1, counterexample: after reading a file whose records carry timestamps
5s then 3s, `_first_timestamp = 5000000` while the smallest (and most
recent) observed timestamp is `3000000 = _last_timestamp`; in particular
`first_timestamp ≤ last_timestamp` fails although both are set. -/
theorem C1_counterexample :
    (openModel {} pcapStreamDecreasing).map
      (fun p => ((readIP oracleNone 5 p.1 p.2).st.first_timestamp,
                 (readIP oracleNone 5 p.1 p.2).st.last_timestamp)) =
      .ok (5000000, 3000000) ∧
    ¬((5000000 : Int) ≤ 3000000) := by
  decide

/-- C1, amended: whenever a real (non-negative) timestamp is observed, the
offset-adjusted value becomes `_last_timestamp`, and `_first_timestamp` is
set to it only if still unset — so `_first_timestamp` is the *first* real
timestamp observed, not necessarily the smallest; records without a real
timestamp leave both unchanged; `first_timestamp ≤ last_timestamp` is
guaranteed only when the newly observed timestamp is not smaller than the
recorded first one (e.g. when timestamps are non-decreasing). -/
theorem C1_amended :
    (∀ (st : PcapState) (tofs ts : Int), 0 ≤ ts →
       (updateTimestamps st tofs ts).1.last_timestamp = ts + tofs ∧
       (updateTimestamps st tofs ts).1.first_timestamp =
         (if st.first_timestamp < 0 then ts + tofs else st.first_timestamp)) ∧
    (∀ (st : PcapState) (tofs ts : Int), ts < 0 →
       updateTimestamps st tofs ts = (st, ts)) ∧
    (∀ (st : PcapState) (tofs ts : Int), 0 ≤ ts →
       st.first_timestamp < 0 ∨ st.first_timestamp ≤ ts + tofs →
       (updateTimestamps st tofs ts).1.first_timestamp ≤
         (updateTimestamps st tofs ts).1.last_timestamp) := by
  refine ⟨?_, ?_, ?_⟩
  · intro st tofs ts h
    rw [updateTimestamps, if_pos h]
    exact ⟨rfl, rfl⟩
  · intro st tofs ts h
    rw [updateTimestamps, if_neg (by omega)]
  · intro st tofs ts h hf
    rw [updateTimestamps, if_pos h]
    dsimp only
    split <;> omega

/-! ### C9: error latching -/

/-- Every failing outcome of the block-parsing stage leaves the error flag
set (the source reaches these returns only through `error()`). -/
theorem parseBlock_fail_error (o : Oracle) (st st2 : PcapState) (s s2 : List Nat)
    (h : parseBlock o st s = .fail st2 s2) : st2.error = true := by
  unfold parseBlock at h
  by_cases hng : st.ng = true
  · rw [if_pos hng] at h
    cases h4 : readall 4 s with
    | none => rw [h4] at h; simp only [] at h; cases h; rfl
    | some pr =>
      obtain ⟨tf, s1⟩ := pr
      rw [h4] at h
      simp only [] at h
      by_cases hsh : get32 st.be tf 0 = PCAPNG_SECTION_HEADER
      · rw [if_pos hsh] at h
        cases hh : readHeader (get32 st.be tf 0) st s1 with
        | error e => rw [hh] at h; simp only [] at h; cases h; rfl
        | ok p =>
          obtain ⟨a, b⟩ := p
          rw [hh] at h
          simp only [] at h
          cases h
      · rw [if_neg hsh] at h
        cases hb : readNgBlockBody st.be (get32 st.be tf 0) s1 with
        | error e => rw [hb] at h; simp only [] at h; cases h; rfl
        | ok tr =>
          obtain ⟨buffer, be2, s2x⟩ := tr
          rw [hb] at h
          simp only [] at h
          by_cases hid : get32 st.be tf 0 = PCAPNG_INTERFACE_DESC
          · rw [if_pos hid] at h
            cases ha : analyzeNgInterface st.be buffer with
            | error e => rw [ha] at h; simp only [] at h; cases h; rfl
            | ok ifd => rw [ha] at h; simp only [] at h; cases h
          · rw [if_neg hid] at h
            by_cases hep : (get32 st.be tf 0 = PCAPNG_ENHANCED_PACKET ∨
                get32 st.be tf 0 = PCAPNG_OBSOLETE_PACKET) ∧ 20 ≤ buffer.length
            · rw [if_pos hep] at h; cases h
            · rw [if_neg hep] at h
              by_cases hsp : get32 st.be tf 0 = PCAPNG_SIMPLE_PACKET ∧ 4 ≤ buffer.length
              · rw [if_pos hsp] at h; cases h
              · rw [if_neg hsp] at h; cases h
  · rw [if_neg hng] at h
    cases h16 : readall 16 s with
    | none => rw [h16] at h; simp only [] at h; cases h; rfl
    | some pr =>
      obtain ⟨header, s1⟩ := pr
      rw [h16] at h
      simp only [] at h
      cases hc : readall (get32 st.be header 8) s1 with
      | none => rw [hc] at h; simp only [] at h; cases h; rfl
      | some pr2 =>
        obtain ⟨buffer, s2x⟩ := pr2
        rw [hc] at h
        simp only [] at h
        cases h

/-- The IP extraction attempt never fails: an invalid datagram is skipped. -/
theorem tryIp_not_fail (o : Oracle) (st : PcapState) (s buffer : List Nat)
    (cs csz : Nat) (vl : List VLANId) (ts : Int) (st2 : PcapState) (s2 : List Nat) :
    tryIp o st s buffer cs csz vl ts ≠ .fail st2 s2 := by
  intro h
  unfold tryIp at h
  by_cases hc : 0 < csz
  · rw [if_pos hc] at h
    cases hp : o.ip_parse ((buffer.drop cs).take csz) with
    | some pkt => rw [hp] at h; simp only [] at h; cases h
    | none => rw [hp] at h; simp only [] at h; cases h
  · rw [if_neg hc] at h; cases h

/-- The capture-processing stage never fails: a malformed or non-IP record
is skipped, not an error. -/
theorem processCaptured_not_fail (o : Oracle) (st st2 : PcapState)
    (s s2 buf : List Nat) (cs csz osz ii : Nat) (ts : Int) :
    processCaptured o st s buf cs csz osz ii ts ≠ .fail st2 s2 := by
  intro h
  unfold processCaptured at h
  by_cases ht : csz < osz
  · rw [if_pos ht] at h; cases h
  · rw [if_neg ht] at h
    simp only [] at h
    repeat' split at h
    all_goals exact tryIp_not_fail _ _ _ _ _ _ _ _ _ _ h

/-- A failing loop iteration leaves the error flag set. -/
theorem readIPStep_fail_error (o : Oracle) (st st2 : PcapState) (s s2 : List Nat)
    (h : readIPStep o st s = .fail st2 s2) : st2.error = true := by
  unfold readIPStep at h
  cases hp : parseBlock o st s with
  | fail a b =>
    rw [hp] at h
    simp only [] at h
    cases h
    · exact parseBlock_fail_error o st st2 s s2 hp
  | skip a b => rw [hp] at h; simp only [] at h; cases h
  | record a b buf cs csz osz ii ts =>
    rw [hp] at h
    simp only [] at h
    exact absurd h (processCaptured_not_fail o a st2 b s2 buf cs csz osz ii ts)

/-- A successful header decode does not touch the error flag. -/
theorem readHeader_ok_error (magic : Nat) (st : PcapState) (s : List Nat)
    (p : PcapState × List Nat) (h : readHeader magic st s = .ok p) :
    p.1.error = st.error := by
  unfold readHeader at h
  by_cases h1 : magic = PCAP_MAGIC_BE ∨ magic = PCAP_MAGIC_LE ∨
      magic = PCAPNS_MAGIC_BE ∨ magic = PCAPNS_MAGIC_LE
  · rw [if_pos h1] at h
    cases hr : readall 20 s with
    | none => rw [hr] at h; simp only [] at h; cases h
    | some pr =>
      obtain ⟨header, s1⟩ := pr
      rw [hr] at h
      simp only [] at h
      cases h
      rfl
  · rw [if_neg h1] at h
    by_cases h2 : magic = PCAPNG_MAGIC
    · rw [if_pos h2] at h
      cases hb : readNgBlockBody st.be magic s with
      | error e => rw [hb] at h; simp only [] at h; cases h
      | ok tr =>
        obtain ⟨header, be2, s1⟩ := tr
        rw [hb] at h
        simp only [] at h
        by_cases h3 : header.length < 16
        · rw [if_pos h3] at h; cases h
        · rw [if_neg h3] at h; cases h; rfl
    · rw [if_neg h2] at h; cases h

/-- C9: once the error flag is latched, every subsequent `readIP` call on the
open file returns false immediately, consuming no input and leaving the
state unchanged; every failing loop iteration is what latches it; and a
successful `open()` resets the flag (set to `false` before the header is
read and untouched by a successful header decode). -/
theorem C9_latched_error :
    (∀ (o : Oracle) (fuel : Nat) (st : PcapState) (s : List Nat),
       st.error = true → readIP o fuel st s = ⟨false, st, s, none⟩) ∧
    (∀ (o : Oracle) (st st2 : PcapState) (s s2 : List Nat),
       readIPStep o st s = .fail st2 s2 → st2.error = true) ∧
    (∀ (prev : PcapState) (s : List Nat) (p : PcapState × List Nat),
       openModel prev s = .ok p → p.1.error = false) ∧
    readIP oracleNone 5 { error := true, ng := true } [1, 2, 3] =
      ⟨false, { error := true, ng := true }, [1, 2, 3], none⟩ := by
  refine ⟨?_, readIPStep_fail_error, ?_, by decide⟩
  · intro o fuel st s h
    rw [readIP, if_pos (by simp [h])]
  · intro prev s p h
    unfold openModel at h
    cases hr : readall 4 s with
    | none => rw [hr] at h; simp only [] at h; cases h
    | some pr =>
      rw [hr] at h
      simp only [] at h
      rw [readHeader_ok_error _ _ _ _ h]

/-! ### C5: truncated records -/

/-- Whenever the parsing stage produces a captured record, it has counted
exactly one packet (`_packet_count`) and touched no other counter and no
timestamp. -/
theorem parseBlock_record_counters (o : Oracle) (st : PcapState) (s : List Nat)
    (st2 : PcapState) (s2 buf : List Nat) (cs csz osz ii : Nat) (ts : Int)
    (h : parseBlock o st s = .record st2 s2 buf cs csz osz ii ts) :
    st2.packet_count = st.packet_count + 1 ∧
    st2.ip_packet_count = st.ip_packet_count ∧
    st2.packets_size = st.packets_size ∧
    st2.ip_packets_size = st.ip_packets_size ∧
    st2.first_timestamp = st.first_timestamp ∧
    st2.last_timestamp = st.last_timestamp := by
  unfold parseBlock at h
  by_cases hng : st.ng = true
  · rw [if_pos hng] at h
    cases h4 : readall 4 s with
    | none => rw [h4] at h; simp only [] at h; cases h
    | some pr =>
      obtain ⟨tf, s1⟩ := pr
      rw [h4] at h
      simp only [] at h
      by_cases hsh : get32 st.be tf 0 = PCAPNG_SECTION_HEADER
      · rw [if_pos hsh] at h
        cases hh : readHeader (get32 st.be tf 0) st s1 with
        | error e => rw [hh] at h; simp only [] at h; cases h
        | ok p =>
          obtain ⟨a, b⟩ := p
          rw [hh] at h
          simp only [] at h
          cases h
      · rw [if_neg hsh] at h
        cases hb : readNgBlockBody st.be (get32 st.be tf 0) s1 with
        | error e => rw [hb] at h; simp only [] at h; cases h
        | ok tr =>
          obtain ⟨buffer, be2, s2x⟩ := tr
          rw [hb] at h
          simp only [] at h
          by_cases hid : get32 st.be tf 0 = PCAPNG_INTERFACE_DESC
          · rw [if_pos hid] at h
            cases ha : analyzeNgInterface st.be buffer with
            | error e => rw [ha] at h; simp only [] at h; cases h
            | ok ifd => rw [ha] at h; simp only [] at h; cases h
          · rw [if_neg hid] at h
            by_cases hep : (get32 st.be tf 0 = PCAPNG_ENHANCED_PACKET ∨
                get32 st.be tf 0 = PCAPNG_OBSOLETE_PACKET) ∧ 20 ≤ buffer.length
            · rw [if_pos hep] at h
              cases h
              exact ⟨rfl, rfl, rfl, rfl, rfl, rfl⟩
            · rw [if_neg hep] at h
              by_cases hsp : get32 st.be tf 0 = PCAPNG_SIMPLE_PACKET ∧ 4 ≤ buffer.length
              · rw [if_pos hsp] at h
                cases h
                exact ⟨rfl, rfl, rfl, rfl, rfl, rfl⟩
              · rw [if_neg hsp] at h; cases h
  · rw [if_neg hng] at h
    cases h16 : readall 16 s with
    | none => rw [h16] at h; simp only [] at h; cases h
    | some pr =>
      obtain ⟨header, s1⟩ := pr
      rw [h16] at h
      simp only [] at h
      cases hc : readall (get32 st.be header 8) s1 with
      | none => rw [hc] at h; simp only [] at h; cases h
      | some pr2 =>
        obtain ⟨buffer, s2x⟩ := pr2
        rw [hc] at h
        simp only [] at h
        cases h
        exact ⟨rfl, rfl, rfl, rfl, rfl, rfl⟩

/-- A truncated captured record (captured size smaller than original) only
adds its captured size to `_packets_size` and moves on to the next block. -/
theorem processCaptured_truncated (o : Oracle) (st : PcapState)
    (s buf : List Nat) (cs csz osz ii : Nat) (ts : Int) (h : csz < osz) :
    processCaptured o st s buf cs csz osz ii ts =
      .cont { st with packets_size := st.packets_size + csz } s := by
  unfold processCaptured
  simp only []
  rw [if_pos h]

/-- The legacy-pcap state right after opening a big-endian microsecond file
with an Ethernet interface. -/
def legacyStateTrunc : PcapState :=
  { ng := false, be := true,
    interfaces := [{ link_type := LINKTYPE_ETHERNET, fcs_size := 0,
                     time_units := 1000000, time_offset := 0 }] }

/-- One legacy record header with seconds 10, microseconds 500000, captured
size 500, original size 1500, followed by the 500 captured bytes. -/
def legacyStreamTrunc : List Nat :=
  ([0, 0, 0, 10] ++ [0, 7, 161, 32] ++ [0, 0, 1, 244] ++ [0, 0, 5, 220]) ++
  List.replicate 500 7

set_option maxRecDepth 4000 in
/-- C5: a packet-bearing record whose captured size is strictly smaller than
its original size yields no IP datagram: the iteration continues with the
next record, `_packet_count` incremented by the parsing stage,
`_packets_size` increased by the captured size, and the IP counters (and
timestamps) untouched.  Checked end-to-end on the truncated-record scenario
(original 1500, captured 500). -/
theorem C5_truncated_skipped :
    (∀ (o : Oracle) (st : PcapState) (s : List Nat) (st2 : PcapState)
       (s2 buf : List Nat) (cs csz osz ii : Nat) (ts : Int),
       parseBlock o st s = .record st2 s2 buf cs csz osz ii ts →
       st2.packet_count = st.packet_count + 1 ∧
       st2.ip_packet_count = st.ip_packet_count ∧
       st2.packets_size = st.packets_size ∧
       st2.ip_packets_size = st.ip_packets_size) ∧
    (∀ (o : Oracle) (st : PcapState) (s buf : List Nat) (cs csz osz ii : Nat) (ts : Int),
       csz < osz →
       processCaptured o st s buf cs csz osz ii ts =
         .cont { st with packets_size := st.packets_size + csz } s) ∧
    (∀ (o : Oracle) (st : PcapState) (s : List Nat) (st2 : PcapState)
       (s2 buf : List Nat) (cs csz osz ii : Nat) (ts : Int),
       parseBlock o st s = .record st2 s2 buf cs csz osz ii ts → csz < osz →
       readIPStep o st s = .cont { st2 with packets_size := st2.packets_size + csz } s2) ∧
    readIPStep oracleNone legacyStateTrunc legacyStreamTrunc =
      .cont { legacyStateTrunc with packet_count := 1, packets_size := 500 } [] := by
  refine ⟨?_, ?_, ?_, by decide⟩
  · intro o st s st2 s2 buf cs csz osz ii ts h
    obtain ⟨h1, h2, h3, h4, -, -⟩ := parseBlock_record_counters o st s st2 s2 buf cs csz osz ii ts h
    exact ⟨h1, h2, h3, h4⟩
  · intro o st s buf cs csz osz ii ts h
    exact processCaptured_truncated o st s buf cs csz osz ii ts h
  · intro o st s st2 s2 buf cs csz osz ii ts hp h
    unfold readIPStep
    rw [hp]
    simp only []
    exact processCaptured_truncated o st2 s2 buf cs csz osz ii ts h

/-! ### C6: VLAN decapsulation -/

/-- Whether a step result yields a packet. -/
def Step.isYield : Step → Bool
  | .yield _ _ _ _ _ => true
  | _ => false

/-- A nested Ethernet frame: 12 MAC bytes, outer EtherType `0x88A8`, a 4-byte
802.1ad tag with id 100 announcing `0x8100`, a 4-byte 802.1Q tag with id 200
announcing `0x0800` (IPv4), then 2 payload bytes. -/
def ethFrameNested : List Nat :=
  List.replicate 12 0 ++ [0x88, 0xA8] ++ [0x00, 0x64, 0x81, 0x00] ++
  [0x00, 0xC8, 0x08, 0x00] ++ [0xAB, 0xCD]

/-- A pcap-ng state with a single Ethernet interface. -/
def ethState : PcapState :=
  { ng := true, be := false,
    interfaces := [{ link_type := LINKTYPE_ETHERNET, fcs_size := 0,
                     time_units := 1000000, time_offset := 0 }] }

/-- C6: each 802.1Q/802.1ad tag consumes 4 bytes and pushes the next
EtherType with the low 12 bits of its first 2 bytes; each 802.1ah tag
consumes 18 bytes and pushes the next EtherType with the low 12 bits of the
24-bit big-endian value at bytes 1..3; unwrapping stops (without consuming)
on IPv4/IPv6 or an exhausted size, and stops by zeroing the size on an
unknown EtherType.  On the nested 802.1ad(100)/802.1Q(200)/IPv4 frame the
yielded VLAN stack is `[{0x8100, 100}, {0x0800, 200}]`. -/
theorem C6_vlan_unwrapping :
    (∀ (buf : List Nat) (et cs csz : Nat) (vl : List VLANId),
       (et = ETHERTYPE_802_1Q ∨ et = ETHERTYPE_802_1AD) → 4 ≤ csz →
       unwrapVlans buf et cs csz vl =
         unwrapVlans buf (getUInt16BE buf (cs + 2)) (cs + 4) (csz - 4)
           (vl ++ [⟨getUInt16BE buf (cs + 2), getUInt16BE buf cs &&& 0x0FFF⟩])) ∧
    (∀ (buf : List Nat) (cs csz : Nat) (vl : List VLANId), 18 ≤ csz →
       unwrapVlans buf ETHERTYPE_802_1AH cs csz vl =
         unwrapVlans buf (getUInt16BE buf (cs + 16)) (cs + 18) (csz - 18)
           (vl ++ [⟨getUInt16BE buf (cs + 16), getUInt24BE buf (cs + 1) &&& 0x0FFF⟩])) ∧
    (∀ (buf : List Nat) (et cs csz : Nat) (vl : List VLANId),
       et = ETHERTYPE_IPv4 ∨ et = ETHERTYPE_IPv6 ∨ csz = 0 →
       unwrapVlans buf et cs csz vl = (et, cs, csz, vl)) ∧
    (∀ (buf : List Nat) (et cs csz : Nat) (vl : List VLANId),
       et ≠ ETHERTYPE_IPv4 → et ≠ ETHERTYPE_IPv6 → et ≠ ETHERTYPE_802_1Q →
       et ≠ ETHERTYPE_802_1AD → et ≠ ETHERTYPE_802_1AH → 0 < csz →
       unwrapVlans buf et cs csz vl = (et, cs, 0, vl)) ∧
    unwrapVlans ethFrameNested 0x88A8 14 10 [] =
      (0x0800, 22, 2, [⟨0x8100, 100⟩, ⟨0x0800, 200⟩]) ∧
    (processCaptured oracleSome ethState [] ethFrameNested 0 24 24 0 (-1)).vlansOf =
      [⟨0x8100, 100⟩, ⟨0x0800, 200⟩] ∧
    (processCaptured oracleSome ethState [] ethFrameNested 0 24 24 0 (-1)).isYield = true := by
  refine ⟨?_, ?_, ?_, ?_, ?_, ?_, ?_⟩
  · intro buf et cs csz vl he hsz
    have hne4 : et ≠ ETHERTYPE_IPv4 := by rcases he with h | h <;> subst h <;> decide
    have hne6 : et ≠ ETHERTYPE_IPv6 := by rcases he with h | h <;> subst h <;> decide
    rw [unwrapVlans, if_pos ⟨hne4, hne6, by omega⟩, if_pos ⟨he, hsz⟩]
  · intro buf cs csz vl hsz
    rw [unwrapVlans, if_pos ⟨by decide, by decide, by omega⟩,
        if_neg (by rintro ⟨h | h, -⟩ <;> simp_all [ETHERTYPE_802_1Q, ETHERTYPE_802_1AD, ETHERTYPE_802_1AH]),
        if_pos ⟨rfl, hsz⟩]
  · intro buf et cs csz vl h
    rw [unwrapVlans, if_neg (by rintro ⟨h4, h6, hsz⟩; rcases h with h | h | h <;> simp_all)]
  · intro buf et cs csz vl h4 h6 hq had hah hsz
    rw [unwrapVlans, if_pos ⟨h4, h6, hsz⟩,
        if_neg (by rintro ⟨h | h, -⟩ <;> [exact hq h; exact had h]),
        if_neg (by rintro ⟨h, -⟩; exact hah h)]
  · simp [unwrapVlans, ethFrameNested, getUInt16BE, getUInt24BE, ETHERTYPE_IPv4,
          ETHERTYPE_IPv6, ETHERTYPE_802_1Q, ETHERTYPE_802_1AD, ETHERTYPE_802_1AH]
    decide
  · simp [processCaptured, tryIp, unwrapVlans, oracleSome, ethState, ethFrameNested,
          updateTimestamps, Step.vlansOf, getUInt16BE, getUInt24BE, get32,
          getUInt32BE, getUInt32LE, LINKTYPE_ETHERNET, LINKTYPE_NULL, LINKTYPE_LOOP,
          LINKTYPE_RAW, ETHER_HEADER_SIZE, ETHER_TYPE_OFFSET, ETHERTYPE_IPv4, ETHERTYPE_IPv6,
          ETHERTYPE_802_1Q, ETHERTYPE_802_1AD, ETHERTYPE_802_1AH, PCAPNG_BSD_IPv4,
          PCAPNG_BSD_IPv6_24, PCAPNG_BSD_IPv6_28, PCAPNG_BSD_IPv6_30, PCAPNG_BSD_UNKNOWN]
    decide
  · simp [processCaptured, tryIp, unwrapVlans, oracleSome, ethState, ethFrameNested,
          updateTimestamps, Step.isYield, getUInt16BE, getUInt24BE, get32,
          getUInt32BE, getUInt32LE, LINKTYPE_ETHERNET, LINKTYPE_NULL, LINKTYPE_LOOP,
          LINKTYPE_RAW, ETHER_HEADER_SIZE, ETHER_TYPE_OFFSET, ETHERTYPE_IPv4, ETHERTYPE_IPv6,
          ETHERTYPE_802_1Q, ETHERTYPE_802_1AD, ETHERTYPE_802_1AH, PCAPNG_BSD_IPv4,
          PCAPNG_BSD_IPv6_24, PCAPNG_BSD_IPv6_28, PCAPNG_BSD_IPv6_30, PCAPNG_BSD_UNKNOWN]

/-! ### C3: pcap-ng block framing -/

/-- Inversion for `readall`. -/
theorem readall_eq_some (n : Nat) (s a b : List Nat)
    (h : readall n s = some (a, b)) :
    a = s.take n ∧ b = s.drop n ∧ n ≤ s.length := by
  unfold readall at h
  split at h
  · cases h
    exact ⟨rfl, rfl, by assumption⟩
  · cases h

/-- `finishNgBlock` fails with `badBlockLength` as soon as the leading
length is not a multiple of 4 or smaller than 12 plus the pre-read body. -/
theorem finishNg_badlen (be : Bool) (lenfield body0 s : List Nat)
    (h : get32 be lenfield 0 % 4 ≠ 0 ∨ get32 be lenfield 0 < 12 + body0.length) :
    finishNgBlock be lenfield body0 s = .error .badBlockLength := by
  unfold finishNgBlock
  simp only []
  rw [if_pos h]

/-- `finishNgBlock` fails with `badBlockLength` on a trailing-length
mismatch, provided the length checks pass and the stream is long enough. -/
theorem finishNg_mismatch (be : Bool) (lenfield body0 s : List Nat)
    (h4 : get32 be lenfield 0 % 4 = 0)
    (h12 : 12 + body0.length ≤ get32 be lenfield 0)
    (hlen : get32 be lenfield 0 - 12 - body0.length + 4 ≤ s.length)
    (hne : get32 be lenfield 0 ≠
      get32 be ((s.drop (get32 be lenfield 0 - 12 - body0.length)).take 4) 0) :
    finishNgBlock be lenfield body0 s = .error .badBlockLength := by
  unfold finishNgBlock
  simp only []
  rw [if_neg (by omega)]
  rw [readall, if_pos (by omega)]
  simp only []
  rw [readall, if_pos (by simp only [List.length_drop]; omega)]
  simp only []
  rw [if_pos hne]

/-- Characterization of a successful `finishNgBlock`: the length checks
pass, the trailing length agrees, the returned body extends the pre-read
bytes to exactly `L - 12` bytes, and the endianness is passed through. -/
theorem finishNg_ok (be : Bool) (lenfield body0 s : List Nat)
    (body : List Nat) (be2 : Bool) (rest : List Nat)
    (h : finishNgBlock be lenfield body0 s = .ok (body, be2, rest)) :
    get32 be lenfield 0 % 4 = 0 ∧
    12 + body0.length ≤ get32 be lenfield 0 ∧
    body = body0 ++ s.take (get32 be lenfield 0 - 12 - body0.length) ∧
    body.length = get32 be lenfield 0 - 12 ∧
    get32 be ((s.drop (get32 be lenfield 0 - 12 - body0.length)).take 4) 0 =
      get32 be lenfield 0 ∧
    be2 = be ∧
    rest = (s.drop (get32 be lenfield 0 - 12 - body0.length)).drop 4 := by
  unfold finishNgBlock at h
  simp only [] at h
  by_cases hc : get32 be lenfield 0 % 4 ≠ 0 ∨ get32 be lenfield 0 < 12 + body0.length
  · rw [if_pos hc] at h; cases h
  · rw [if_neg hc] at h
    push_neg at hc
    cases hr : readall (get32 be lenfield 0 - 12 - body0.length) s with
    | none => rw [hr] at h; simp only [] at h; cases h
    | some pr =>
      obtain ⟨restbody, s2⟩ := pr
      obtain ⟨ha, hb, hle⟩ := readall_eq_some _ _ _ _ hr
      rw [hr] at h
      simp only [] at h
      cases hr2 : readall 4 s2 with
      | none => rw [hr2] at h; simp only [] at h; cases h
      | some pr2 =>
        obtain ⟨lenfield2, s3⟩ := pr2
        obtain ⟨ha2, hb2, hle2⟩ := readall_eq_some _ _ _ _ hr2
        rw [hr2] at h
        simp only [] at h
        by_cases hne : get32 be lenfield 0 ≠ get32 be lenfield2 0
        · rw [if_pos hne] at h; cases h
        · rw [if_neg hne] at h
          push_neg at hne
          cases h
          subst ha ha2 hb
          refine ⟨hc.1, hc.2, rfl, ?_, ?_, rfl, hb2⟩
          · simp only [List.length_append, List.length_take]
            omega
          · exact hne.symm

/-- Completeness: whenever `finishNgBlock` reports `badBlockLength`, either
a leading-length check failed or the trailing length disagrees. -/
theorem finishNg_badlen_complete (be : Bool) (lenfield body0 s : List Nat)
    (h : finishNgBlock be lenfield body0 s = .error .badBlockLength) :
    get32 be lenfield 0 % 4 ≠ 0 ∨ get32 be lenfield 0 < 12 + body0.length ∨
    get32 be ((s.drop (get32 be lenfield 0 - 12 - body0.length)).take 4) 0 ≠
      get32 be lenfield 0 := by
  unfold finishNgBlock at h
  simp only [] at h
  by_cases hc : get32 be lenfield 0 % 4 ≠ 0 ∨ get32 be lenfield 0 < 12 + body0.length
  · rcases hc with hc | hc
    · exact .inl hc
    · exact .inr (.inl hc)
  · rw [if_neg hc] at h
    cases hr : readall (get32 be lenfield 0 - 12 - body0.length) s with
    | none => rw [hr] at h; simp only [] at h; cases h
    | some pr =>
      obtain ⟨restbody, s2⟩ := pr
      obtain ⟨ha, hb, hle⟩ := readall_eq_some _ _ _ _ hr
      rw [hr] at h
      simp only [] at h
      cases hr2 : readall 4 s2 with
      | none => rw [hr2] at h; simp only [] at h; cases h
      | some pr2 =>
        obtain ⟨lenfield2, s3⟩ := pr2
        obtain ⟨ha2, hb2, hle2⟩ := readall_eq_some _ _ _ _ hr2
        rw [hr2] at h
        simp only [] at h
        by_cases hne : get32 be lenfield 0 ≠ get32 be lenfield2 0
        · subst ha2 hb
          exact .inr (.inr (fun hx => hne (hx.symm)))
        · rw [if_neg hne] at h; cases h

/-- Statement helper: the number of body bytes pre-read before the length
check (the byte-order magic of a Section Header block). -/
def ngPreRead (bt : Nat) : Nat :=
  if bt = PCAPNG_SECTION_HEADER then 4 else 0

/-- Statement helper: the endianness in effect for the length fields of a
block — for a Section Header block the one announced by its byte-order
magic, otherwise the current one. -/
def ngEffBe (be : Bool) (bt : Nat) (s : List Nat) : Bool :=
  if bt = PCAPNG_SECTION_HEADER
  then getUInt32BE ((s.drop 4).take 4) 0 = PCAPNG_ORDER_BE
  else be

/-- Statement helper: the leading 32-bit block total length of the block at
the head of `s` (the block type has already been consumed). -/
def ngLeadLen (be : Bool) (bt : Nat) (s : List Nat) : Nat :=
  get32 (ngEffBe be bt s) (s.take 4) 0

/-- Statement helper: the trailing 32-bit block total length, located after
the leading length, the pre-read bytes and the block body. -/
def ngTrailLen (be : Bool) (bt : Nat) (s : List Nat) : Nat :=
  get32 (ngEffBe be bt s)
    (((s.drop (4 + ngPreRead bt)).drop (ngLeadLen be bt s - 12 - ngPreRead bt)).take 4) 0

/-- When the leading length (and for a Section Header the byte-order magic)
can be read and the magic is valid, `readNgBlockBody` is `finishNgBlock` on
the decomposed stream. -/
theorem readNg_as_finish (be : Bool) (bt : Nat) (s : List Nat)
    (h4 : 4 ≤ s.length)
    (hsh2 : bt = PCAPNG_SECTION_HEADER →
      8 ≤ s.length ∧ (getUInt32BE ((s.drop 4).take 4) 0 = PCAPNG_ORDER_BE ∨
                      getUInt32BE ((s.drop 4).take 4) 0 = PCAPNG_ORDER_LE)) :
    readNgBlockBody be bt s =
      finishNgBlock (ngEffBe be bt s) (s.take 4) ((s.drop 4).take (ngPreRead bt))
        (s.drop (4 + ngPreRead bt)) := by
  unfold readNgBlockBody
  rw [readall, if_pos h4]
  simp only []
  by_cases hsh : bt = PCAPNG_SECTION_HEADER
  · rw [if_pos hsh]
    obtain ⟨h8, hmv⟩ := hsh2 hsh
    rw [readall, if_pos (by simp only [List.length_drop]; omega)]
    simp only []
    rw [if_neg (by push_neg; intro hne; exact hmv.resolve_left hne)]
    unfold ngEffBe ngPreRead
    simp [hsh, List.drop_drop]
  · rw [if_neg hsh]
    unfold ngEffBe ngPreRead
    simp [hsh]

/-- Inversion: a `badBlockLength` failure of `readNgBlockBody` means a
leading-length check failed or the trailing length disagrees. -/
theorem readNg_badlen_inv (be : Bool) (bt : Nat) (s : List Nat)
    (h : readNgBlockBody be bt s = .error .badBlockLength) :
    ngLeadLen be bt s % 4 ≠ 0 ∨ ngLeadLen be bt s < 12 + ngPreRead bt ∨
    ngTrailLen be bt s ≠ ngLeadLen be bt s := by
  unfold readNgBlockBody at h
  cases h4 : readall 4 s with
  | none => rw [h4] at h; simp only [] at h; cases h
  | some pr =>
    obtain ⟨lenfield, s1⟩ := pr
    obtain ⟨hlf, hs1, hle⟩ := readall_eq_some _ _ _ _ h4
    rw [h4] at h
    simp only [] at h
    by_cases hsh : bt = PCAPNG_SECTION_HEADER
    · rw [if_pos hsh] at h
      cases h4b : readall 4 s1 with
      | none => rw [h4b] at h; simp only [] at h; cases h
      | some pr2 =>
        obtain ⟨magicBytes, s2⟩ := pr2
        obtain ⟨hmb, hs2, hle2⟩ := readall_eq_some _ _ _ _ h4b
        rw [h4b] at h
        simp only [] at h
        by_cases hbo : getUInt32BE magicBytes 0 ≠ PCAPNG_ORDER_BE ∧
            getUInt32BE magicBytes 0 ≠ PCAPNG_ORDER_LE
        · rw [if_pos hbo] at h; cases h
        · rw [if_neg hbo] at h
          have hc := finishNg_badlen_complete _ _ _ _ h
          subst hlf hs1 hmb hs2
          have hml : ((s.drop 4).take 4).length = 4 := by
            simp only [List.length_take, List.length_drop]
            simp only [List.length_drop] at hle2
            omega
          rw [hml, List.drop_drop 4 4 s] at hc
          simp only [ngLeadLen, ngTrailLen, ngPreRead, ngEffBe, if_pos hsh]
          exact hc
    · rw [if_neg hsh] at h
      have hc := finishNg_badlen_complete _ _ _ _ h
      subst hlf hs1
      simp only [List.length_nil, Nat.sub_zero] at hc
      simp only [ngLeadLen, ngTrailLen, ngPreRead, ngEffBe, if_neg hsh,
                 Nat.add_zero, Nat.sub_zero]
      exact hc

/-- Inversion: a successful `readNgBlockBody` passed every framing check —
length a multiple of 4 and at least 12 plus the pre-read bytes, trailing
length equal to the leading one — and returns the announced endianness and
a body of exactly `L - 12` bytes. -/
theorem readNg_ok_inv (be : Bool) (bt : Nat) (s : List Nat)
    (body : List Nat) (be2 : Bool) (rest : List Nat)
    (h : readNgBlockBody be bt s = .ok (body, be2, rest)) :
    be2 = ngEffBe be bt s ∧
    ngLeadLen be bt s % 4 = 0 ∧
    12 + ngPreRead bt ≤ ngLeadLen be bt s ∧
    body.length = ngLeadLen be bt s - 12 ∧
    ngTrailLen be bt s = ngLeadLen be bt s := by
  unfold readNgBlockBody at h
  cases h4 : readall 4 s with
  | none => rw [h4] at h; simp only [] at h; cases h
  | some pr =>
    obtain ⟨lenfield, s1⟩ := pr
    obtain ⟨hlf, hs1, hle⟩ := readall_eq_some _ _ _ _ h4
    rw [h4] at h
    simp only [] at h
    by_cases hsh : bt = PCAPNG_SECTION_HEADER
    · rw [if_pos hsh] at h
      cases h4b : readall 4 s1 with
      | none => rw [h4b] at h; simp only [] at h; cases h
      | some pr2 =>
        obtain ⟨magicBytes, s2⟩ := pr2
        obtain ⟨hmb, hs2, hle2⟩ := readall_eq_some _ _ _ _ h4b
        rw [h4b] at h
        simp only [] at h
        by_cases hbo : getUInt32BE magicBytes 0 ≠ PCAPNG_ORDER_BE ∧
            getUInt32BE magicBytes 0 ≠ PCAPNG_ORDER_LE
        · rw [if_pos hbo] at h; cases h
        · rw [if_neg hbo] at h
          obtain ⟨hm4, hm12, -, hblen, htr, hbe2, -⟩ := finishNg_ok _ _ _ _ _ _ _ h
          subst hlf hs1 hmb hs2
          have hml : ((s.drop 4).take 4).length = 4 := by
            simp only [List.length_take, List.length_drop]
            simp only [List.length_drop] at hle2
            omega
          rw [hml] at hm12 htr
          rw [List.drop_drop 4 4 s] at htr
          simp only [ngLeadLen, ngTrailLen, ngPreRead, ngEffBe, if_pos hsh]
          exact ⟨hbe2, hm4, hm12, hblen, htr⟩
    · rw [if_neg hsh] at h
      obtain ⟨hm4, hm12, -, hblen, htr, hbe2, -⟩ := finishNg_ok _ _ _ _ _ _ _ h
      subst hlf hs1
      simp only [List.length_nil, Nat.sub_zero] at hm12 hblen htr
      simp only [ngLeadLen, ngTrailLen, ngPreRead, ngEffBe, if_neg hsh,
                 Nat.add_zero, Nat.sub_zero]
      exact ⟨hbe2, hm4, by omega, hblen, htr⟩

/-- Completeness: a failing leading-length check does produce
`badBlockLength` (given the length field, and for a Section Header a valid
byte-order magic, can be read). -/
theorem readNg_badlen_lead (be : Bool) (bt : Nat) (s : List Nat)
    (hlen : 4 + ngPreRead bt ≤ s.length)
    (hmv : bt = PCAPNG_SECTION_HEADER →
      getUInt32BE ((s.drop 4).take 4) 0 = PCAPNG_ORDER_BE ∨
      getUInt32BE ((s.drop 4).take 4) 0 = PCAPNG_ORDER_LE)
    (hcond : ngLeadLen be bt s % 4 ≠ 0 ∨ ngLeadLen be bt s < 12 + ngPreRead bt) :
    readNgBlockBody be bt s = .error .badBlockLength := by
  have hbl : ((s.drop 4).take (ngPreRead bt)).length = ngPreRead bt := by
    simp only [List.length_take, List.length_drop]
    omega
  rw [readNg_as_finish be bt s (by omega)
        (fun hsh => ⟨by have := hlen; unfold ngPreRead at this; rw [if_pos hsh] at this; omega,
                     hmv hsh⟩)]
  exact finishNg_badlen _ _ _ _ (by rw [hbl]; exact hcond)

/-- Completeness: a trailing-length mismatch does produce `badBlockLength`
when the leading checks pass and the whole block is present in the
stream. -/
theorem readNg_badlen_trail (be : Bool) (bt : Nat) (s : List Nat)
    (hlen : 4 + ngPreRead bt + (ngLeadLen be bt s - 12 - ngPreRead bt) + 4 ≤ s.length)
    (hmv : bt = PCAPNG_SECTION_HEADER →
      getUInt32BE ((s.drop 4).take 4) 0 = PCAPNG_ORDER_BE ∨
      getUInt32BE ((s.drop 4).take 4) 0 = PCAPNG_ORDER_LE)
    (h4 : ngLeadLen be bt s % 4 = 0)
    (h12 : 12 + ngPreRead bt ≤ ngLeadLen be bt s)
    (hne : ngTrailLen be bt s ≠ ngLeadLen be bt s) :
    readNgBlockBody be bt s = .error .badBlockLength := by
  have hbl : ((s.drop 4).take (ngPreRead bt)).length = ngPreRead bt := by
    simp only [List.length_take, List.length_drop]
    omega
  rw [readNg_as_finish be bt s (by omega)
        (fun hsh => ⟨by have := hlen; unfold ngPreRead at this; rw [if_pos hsh] at this; omega,
                     hmv hsh⟩)]
  refine finishNg_mismatch _ _ _ _ h4 (by rw [hbl]; exact h12) ?_ ?_
  · rw [hbl]
    simp only [List.length_drop]
    simp only [ngLeadLen] at hlen
    omega
  · rw [hbl]
    exact fun he => hne he.symm

/-- C3, counterexample: a Section Header block whose leading and trailing
lengths are both 12 (a multiple of 4, not below 12) is rejected with
`badBlockLength`, because for a Section Header the 4 bytes of byte-order
magic are pre-read into the body and the check is `L < 12 + 4`. -/
theorem C3_counterexample :
    readNgBlockBody false PCAPNG_SECTION_HEADER
        ([0, 0, 0, 12] ++ [0x1A, 0x2B, 0x3C, 0x4D] ++ [0, 0, 0, 12]) =
      .error .badBlockLength ∧
    ngLeadLen false PCAPNG_SECTION_HEADER
        ([0, 0, 0, 12] ++ [0x1A, 0x2B, 0x3C, 0x4D] ++ [0, 0, 0, 12]) = 12 ∧
    12 % 4 = 0 ∧ ¬(12 < 12) ∧
    (([0, 0, 0, 12] ++ [0x1A, 0x2B, 0x3C, 0x4D] ++
        [0, 0, 0, (12 : Nat)]).drop 8).take 4 =
      ([0, 0, 0, 12] ++ [0x1A, 0x2B, 0x3C, 0x4D] ++ [0, 0, 0, (12 : Nat)]).take 4 := by
  decide

/-- C3, amended: `readNgBlockBody` fails with `badBlockLength` exactly when
the leading 32-bit length `L` satisfies `L % 4 ≠ 0`, `L < 12 + p` — where
`p` is the number of body bytes pre-read before the check: 4 for a Section
Header block (its byte-order magic), 0 otherwise — or `L` differs from the
trailing length; on success both length fields agree, `L ≥ 12 + p`, `L` is
divisible by 4, and the returned body holds the `L - 12` body bytes. -/
theorem C3_block_length :
    (∀ (be : Bool) (bt : Nat) (s : List Nat),
       readNgBlockBody be bt s = .error .badBlockLength →
       ngLeadLen be bt s % 4 ≠ 0 ∨ ngLeadLen be bt s < 12 + ngPreRead bt ∨
       ngTrailLen be bt s ≠ ngLeadLen be bt s) ∧
    (∀ (be : Bool) (bt : Nat) (s : List Nat),
       4 + ngPreRead bt ≤ s.length →
       (bt = PCAPNG_SECTION_HEADER →
         getUInt32BE ((s.drop 4).take 4) 0 = PCAPNG_ORDER_BE ∨
         getUInt32BE ((s.drop 4).take 4) 0 = PCAPNG_ORDER_LE) →
       (ngLeadLen be bt s % 4 ≠ 0 ∨ ngLeadLen be bt s < 12 + ngPreRead bt) →
       readNgBlockBody be bt s = .error .badBlockLength) ∧
    (∀ (be : Bool) (bt : Nat) (s : List Nat),
       4 + ngPreRead bt + (ngLeadLen be bt s - 12 - ngPreRead bt) + 4 ≤ s.length →
       (bt = PCAPNG_SECTION_HEADER →
         getUInt32BE ((s.drop 4).take 4) 0 = PCAPNG_ORDER_BE ∨
         getUInt32BE ((s.drop 4).take 4) 0 = PCAPNG_ORDER_LE) →
       ngLeadLen be bt s % 4 = 0 → 12 + ngPreRead bt ≤ ngLeadLen be bt s →
       ngTrailLen be bt s ≠ ngLeadLen be bt s →
       readNgBlockBody be bt s = .error .badBlockLength) ∧
    (∀ (be : Bool) (bt : Nat) (s body : List Nat) (be2 : Bool) (rest : List Nat),
       readNgBlockBody be bt s = .ok (body, be2, rest) →
       be2 = ngEffBe be bt s ∧
       ngLeadLen be bt s % 4 = 0 ∧
       12 + ngPreRead bt ≤ ngLeadLen be bt s ∧
       body.length = ngLeadLen be bt s - 12 ∧
       ngTrailLen be bt s = ngLeadLen be bt s) := by
  exact ⟨readNg_badlen_inv, readNg_badlen_lead, readNg_badlen_trail,
         fun be bt s body be2 rest h => readNg_ok_inv be bt s body be2 rest h⟩

/-! ### C7 / C10: the filter stage -/

/-- A skipped candidate leaves the filter state unchanged. -/
theorem filterStep_skip_eq (fs : FilterState) (c : Candidate) (fs2 : FilterState)
    (h : filterStep fs c = .skip fs2) : fs2 = fs := by
  unfold filterStep at h
  by_cases h1 : c.packet_count > fs.last_packet ∨ c.timestamp > fs.last_time ∨
      timeOffset c.first_ts c.timestamp > fs.last_time_offset
  · rw [if_pos h1] at h; cases h
  · rw [if_neg h1] at h
    by_cases h2 : (fs.protocols ≠ [] ∧ ¬fs.protocols.contains c.packet.protocol) ∨
        c.packet_count < fs.first_packet ∨ c.timestamp < fs.first_time ∨
        timeOffset c.first_ts c.timestamp < fs.first_time_offset ∨
        ¬vlanStackMatch c.vlans fs.opt_vlans
    · rw [if_pos h2] at h; cases h; rfl
    · rw [if_neg h2] at h
      simp only [] at h
      by_cases h3 : c.packet.source.smatch fs.source = true ∧
          c.packet.destination.smatch fs.destination = true
      · rw [if_pos h3] at h; cases h
      · rw [if_neg h3] at h
        by_cases h4 : fs.bidirectional_filter = true ∧
            c.packet.source.smatch fs.destination = true ∧
            c.packet.destination.smatch fs.source = true
        · rw [if_pos h4] at h; cases h
        · rw [if_neg h4] at h; cases h; rfl

/-- A stopping candidate leaves the filter state unchanged. -/
theorem filterStep_stop_eq (fs : FilterState) (c : Candidate) (fs2 : FilterState)
    (h : filterStep fs c = .stop fs2) : fs2 = fs := by
  unfold filterStep at h
  by_cases h1 : c.packet_count > fs.last_packet ∨ c.timestamp > fs.last_time ∨
      timeOffset c.first_ts c.timestamp > fs.last_time_offset
  · rw [if_pos h1] at h; cases h; rfl
  · rw [if_neg h1] at h
    by_cases h2 : (fs.protocols ≠ [] ∧ ¬fs.protocols.contains c.packet.protocol) ∨
        c.packet_count < fs.first_packet ∨ c.timestamp < fs.first_time ∨
        timeOffset c.first_ts c.timestamp < fs.first_time_offset ∨
        ¬vlanStackMatch c.vlans fs.opt_vlans
    · rw [if_pos h2] at h; cases h
    · rw [if_neg h2] at h
      simp only [] at h
      by_cases h3 : c.packet.source.smatch fs.source = true ∧
          c.packet.destination.smatch fs.destination = true
      · rw [if_pos h3] at h; cases h
      · rw [if_neg h3] at h
        by_cases h4 : fs.bidirectional_filter = true ∧
            c.packet.source.smatch fs.destination = true ∧
            c.packet.destination.smatch fs.source = true
        · rw [if_pos h4] at h; cases h
        · rw [if_neg h4] at h; cases h

/-- Inversion of an accepted candidate: the packet passed the windows (in
particular `first_time ≤ timestamp`), it matched the filter pair forward or
— under the bidirectional option — reversed, the time windows are
unchanged, and the learned addresses are exactly the packet's pair (swapped
when only the reverse branch matched) when learning was enabled, the old
ones otherwise. -/
theorem filterStep_accept_inv (fs : FilterState) (c : Candidate) (fs2 : FilterState)
    (h : filterStep fs c = .accept fs2) :
    fs.first_time ≤ c.timestamp ∧
    fs2.first_time = fs.first_time ∧
    ((c.packet.source.smatch fs.source = true ∧
      c.packet.destination.smatch fs.destination = true) ∨
     (fs.bidirectional_filter = true ∧
      c.packet.source.smatch fs.destination = true ∧
      c.packet.destination.smatch fs.source = true)) ∧
    ((fs.wildcard_filter = true ∨ addressFilterIsSet fs = true) → fs2 = fs) ∧
    (fs.wildcard_filter = false → addressFilterIsSet fs = false →
      ((c.packet.source.smatch fs.source = true ∧
        c.packet.destination.smatch fs.destination = true) →
         fs2.source = c.packet.source ∧ fs2.destination = c.packet.destination) ∧
      (¬(c.packet.source.smatch fs.source = true ∧
         c.packet.destination.smatch fs.destination = true) →
         fs2.source = c.packet.destination ∧ fs2.destination = c.packet.source)) := by
  unfold filterStep at h
  by_cases h1 : c.packet_count > fs.last_packet ∨ c.timestamp > fs.last_time ∨
      timeOffset c.first_ts c.timestamp > fs.last_time_offset
  · rw [if_pos h1] at h; cases h
  · rw [if_neg h1] at h
    by_cases h2 : (fs.protocols ≠ [] ∧ ¬fs.protocols.contains c.packet.protocol) ∨
        c.packet_count < fs.first_packet ∨ c.timestamp < fs.first_time ∨
        timeOffset c.first_ts c.timestamp < fs.first_time_offset ∨
        ¬vlanStackMatch c.vlans fs.opt_vlans
    · rw [if_pos h2] at h; cases h
    · rw [if_neg h2] at h
      push_neg at h2
      obtain ⟨-, -, hts, -, -⟩ := h2
      simp only [] at h
      by_cases h3 : c.packet.source.smatch fs.source = true ∧
          c.packet.destination.smatch fs.destination = true
      · rw [if_pos h3] at h
        by_cases h5 : ¬fs.wildcard_filter = true ∧ ¬addressFilterIsSet fs = true
        · rw [if_pos h5] at h
          cases h
          refine ⟨hts, rfl, .inl h3, ?_, ?_⟩
          · intro hcon
            rcases hcon with hcon | hcon
            · exact absurd hcon h5.1
            · exact absurd hcon h5.2
          · intro _ _
            exact ⟨fun _ => ⟨rfl, rfl⟩, fun hcon => absurd h3 hcon⟩
        · rw [if_neg h5] at h
          cases h
          refine ⟨hts, rfl, .inl h3, fun _ => rfl, ?_⟩
          intro hw hset
          exact absurd ⟨by simp [hw], by simp [hset]⟩ h5
      · rw [if_neg h3] at h
        by_cases h4 : fs.bidirectional_filter = true ∧
            c.packet.source.smatch fs.destination = true ∧
            c.packet.destination.smatch fs.source = true
        · rw [if_pos h4] at h
          by_cases h5 : ¬fs.wildcard_filter = true ∧ ¬addressFilterIsSet fs = true
          · rw [if_pos h5] at h
            cases h
            refine ⟨hts, rfl, .inr h4, ?_, ?_⟩
            · intro hcon
              rcases hcon with hcon | hcon
              · exact absurd hcon h5.1
              · exact absurd hcon h5.2
            · intro _ _
              exact ⟨fun hcon => absurd hcon h3, fun _ => ⟨rfl, rfl⟩⟩
          · rw [if_neg h5] at h
            cases h
            refine ⟨hts, rfl, .inr h4, fun _ => rfl, ?_⟩
            intro hw hset
            exact absurd ⟨by simp [hw], by simp [hset]⟩ h5
        · rw [if_neg h4] at h; cases h

/-- A bidirectional filter between two full wildcards with wildcard matching
disallowed (scenario: flow auto-learning). -/
def fsBidi : FilterState :=
  { bidirectional_filter := true, wildcard_filter := false }

/-- First packet of the learned flow: `A:1234 → B:80` (addresses are opaque
numbers: `A = 10`, `B = 20`). -/
def candAB : Candidate :=
  { packet := { source := ⟨some 10, some 1234⟩, destination := ⟨some 20, some 80⟩,
                protocol := IP_SUBPROTO_TCP },
    vlans := [], timestamp := 0, packet_count := 1, first_ts := 0 }

/-- Reverse packet of the learned flow: `B:80 → A:1234`. -/
def candBA : Candidate :=
  { packet := { source := ⟨some 20, some 80⟩, destination := ⟨some 10, some 1234⟩,
                protocol := IP_SUBPROTO_TCP },
    vlans := [], timestamp := 0, packet_count := 2, first_ts := 0 }

/-- A packet of an unrelated flow: `C:9 → D:9` (`C = 30`, `D = 40`). -/
def candCD : Candidate :=
  { packet := { source := ⟨some 30, some 9⟩, destination := ⟨some 40, some 9⟩,
                protocol := IP_SUBPROTO_TCP },
    vlans := [], timestamp := 0, packet_count := 3, first_ts := 0 }

/-- The filter state after learning `(A:1234, B:80)`. -/
def fsLearned : FilterState :=
  { fsBidi with source := ⟨some 10, some 1234⟩, destination := ⟨some 20, some 80⟩ }

/-- C7: with wildcard matching disallowed and the address filter not fully
specified, the first packet accepted by the flow match learns the filter
pair — the packet's `(source, destination)`, swapped when only the reverse
bidirectional branch matched; an accepted packet always matched the pair
forward or (bidirectionally) reversed; skipping and stopping never touch
the state, and learning is the only way `accept` changes it; `open()`
clears the learned addresses (and re-allows wildcards).  The bidirectional
scenario `A:1234 → B:80` (learned), `B:80 → A:1234` (accepted),
`C:9 → D:9` (rejected) is checked concretely. -/
theorem C7_auto_learn :
    (∀ (fs : FilterState) (c : Candidate) (fs2 : FilterState),
       fs.wildcard_filter = false → addressFilterIsSet fs = false →
       filterStep fs c = .accept fs2 →
       ((c.packet.source.smatch fs.source = true ∧
         c.packet.destination.smatch fs.destination = true) →
          fs2.source = c.packet.source ∧ fs2.destination = c.packet.destination) ∧
       (¬(c.packet.source.smatch fs.source = true ∧
          c.packet.destination.smatch fs.destination = true) →
          fs2.source = c.packet.destination ∧ fs2.destination = c.packet.source)) ∧
    (∀ (fs : FilterState) (c : Candidate) (fs2 : FilterState),
       filterStep fs c = .accept fs2 →
       (c.packet.source.smatch fs.source = true ∧
        c.packet.destination.smatch fs.destination = true) ∨
       (fs.bidirectional_filter = true ∧
        c.packet.source.smatch fs.destination = true ∧
        c.packet.destination.smatch fs.source = true)) ∧
    (∀ (fs : FilterState) (c : Candidate) (fs2 : FilterState),
       (filterStep fs c = .skip fs2 → fs2 = fs) ∧
       (filterStep fs c = .stop fs2 → fs2 = fs) ∧
       (filterStep fs c = .accept fs2 →
        (fs.wildcard_filter = true ∨ addressFilterIsSet fs = true) → fs2 = fs)) ∧
    (∀ (opts : FilterOptions) (fs : FilterState),
       (filterOpenReset opts fs).source = {} ∧
       (filterOpenReset opts fs).destination = {} ∧
       (filterOpenReset opts fs).wildcard_filter = true ∧
       (filterOpenReset opts fs).bidirectional_filter = false) ∧
    filterStep fsBidi candAB = .accept fsLearned ∧
    filterStep fsLearned candBA = .accept fsLearned ∧
    filterStep fsLearned candCD = .skip fsLearned ∧
    filterRun fsBidi [candAB, candBA, candCD] = (fsLearned, some candAB) := by
  refine ⟨?_, ?_, ?_, ?_, by decide, by decide, by decide, by decide⟩
  · intro fs c fs2 hw hset h
    exact (filterStep_accept_inv fs c fs2 h).2.2.2.2 hw hset
  · intro fs c fs2 h
    exact (filterStep_accept_inv fs c fs2 h).2.2.1
  · intro fs c fs2
    exact ⟨filterStep_skip_eq fs c fs2, filterStep_stop_eq fs c fs2,
           (filterStep_accept_inv fs c fs2 · |>.2.2.2.1)⟩
  · intro opts fs
    exact ⟨rfl, rfl, rfl, rfl⟩

/-- Evaluations of `filterRun`: every yielded candidate was accepted from a
state with the same `first_time` as the initial one. -/
theorem filterRun_some_ts (cs : List Candidate) (fs : FilterState) (c : Candidate)
    (hft : 0 ≤ fs.first_time) (h : (filterRun fs cs).2 = some c) :
    0 ≤ c.timestamp := by
  induction cs generalizing fs with
  | nil => cases h
  | cons c0 cs ih =>
    unfold filterRun at h
    cases hs : filterStep fs c0 with
    | stop fs2 => rw [hs] at h; simp only [] at h; cases h
    | skip fs2 =>
      rw [hs] at h
      simp only [] at h
      have heq := filterStep_skip_eq fs c0 fs2 hs
      subst heq
      exact ih fs2 hft h
    | accept fs2 =>
      rw [hs] at h
      simp only [] at h
      cases h
      have := (filterStep_accept_inv fs c fs2 hs).1
      omega

/-- A little-endian Simple Packet block (type 3, total length 32) whose
original size is 16 and whose payload is an Ethernet frame announcing IPv4
(EtherType `0x0800`) with 2 payload bytes; Simple Packet blocks have no
timestamp. -/
def ethSimpleStream : List Nat :=
  [3, 0, 0, 0] ++ [32, 0, 0, 0] ++
  ([16, 0, 0, 0] ++ (List.replicate 12 0 ++ [0x08, 0x00] ++ [0xAA, 0xBB])) ++
  [32, 0, 0, 0]

/-- C10: the `first-date` lower bound decodes to a non-negative value
(default 0), so after `loadArgs` the effective `first_time` is never
negative; the filter accepts a candidate only when
`first_time ≤ timestamp`, hence every packet yielded by
`PcapFilter::readIP` has a non-negative timestamp, and a frame without a
timestamp (`-1`) is silently skipped (not a hard stop) whenever the end
windows are not exceeded — even though plain `PcapFile::readIP` does yield
such frames, as the Simple Packet block scenario shows. -/
theorem C10_filter_drops_no_timestamp :
    (∀ d : Option Int, 0 ≤ getDateModel d 0) ∧
    (∀ (fp lp : Option Nat) (fto lto fd ld : Option Int) (vl : List Nat),
       0 ≤ (loadArgs fp lp fto lto fd ld vl).first_time) ∧
    (loadArgs none none none none none none []).first_time = 0 ∧
    (loadArgs none none none none none none []).first_time_offset = 0 ∧
    (∀ (fs : FilterState) (c : Candidate) (fs2 : FilterState),
       0 ≤ fs.first_time → filterStep fs c = .accept fs2 → 0 ≤ c.timestamp) ∧
    (∀ (fs : FilterState) (cs : List Candidate) (c : Candidate),
       0 ≤ fs.first_time → (filterRun fs cs).2 = some c → 0 ≤ c.timestamp) ∧
    (∀ (fs : FilterState) (c : Candidate),
       0 ≤ fs.first_time → c.timestamp = -1 →
       c.packet_count ≤ fs.last_packet → c.timestamp ≤ fs.last_time →
       0 ≤ fs.last_time_offset → filterStep fs c = .skip fs) ∧
    (readIP oracleSome 3 ethState ethSimpleStream).packet = some ({}, [], -1) ∧
    (readIP oracleSome 3 ethState ethSimpleStream).ok = true := by
  have hdate : ∀ d : Option Int, 0 ≤ getDateModel d 0 := by
    intro d
    unfold getDateModel
    cases d with
    | none => simp only []; omega
    | some ms =>
      simp only []
      by_cases hm : ms < 0
      · rw [if_pos hm]
      · rw [if_neg hm]; omega
  have hsimple : ∀ r : ReadResult,
      r = readIP oracleSome 3 ethState ethSimpleStream →
      r.packet = some ({}, [], -1) ∧ r.ok = true := by
    intro r hr
    rw [hr]
    constructor <;>
    simp [readIP, readIPLoop, readIPStep, parseBlock, readall, readNgBlockBody,
          finishNgBlock, processCaptured, tryIp, unwrapVlans, updateTimestamps,
          ngPacketTimestamp, oracleSome, ethState, ethSimpleStream,
          get32, get16, getUInt32LE, getUInt32BE, getUInt16BE, getUInt16LE,
          analyzeNgInterface, LINKTYPE_ETHERNET, LINKTYPE_NULL, LINKTYPE_LOOP,
          LINKTYPE_RAW, ETHER_HEADER_SIZE, ETHER_TYPE_OFFSET, ETHERTYPE_IPv4,
          ETHERTYPE_IPv6, ETHERTYPE_802_1Q, ETHERTYPE_802_1AD, ETHERTYPE_802_1AH,
          IPv4_VERSION, IPv6_VERSION, PCAPNG_BSD_IPv4, PCAPNG_BSD_IPv6_24,
          PCAPNG_BSD_IPv6_28, PCAPNG_BSD_IPv6_30, PCAPNG_BSD_UNKNOWN,
          PCAPNG_SECTION_HEADER, PCAPNG_INTERFACE_DESC, PCAPNG_OBSOLETE_PACKET,
          PCAPNG_SIMPLE_PACKET, PCAPNG_ENHANCED_PACKET]
  refine ⟨hdate, ?_, by decide, by decide, ?_,
          fun fs cs c => filterRun_some_ts cs fs c, ?_,
          (hsimple _ rfl).1, (hsimple _ rfl).2⟩
  · intro fp lp fto lto fd ld vl
    exact hdate fd
  · intro fs c fs2 hft h
    have := (filterStep_accept_inv fs c fs2 h).1
    omega
  · intro fs c hft hts hpc hlt hlto
    have hto : timeOffset c.first_ts c.timestamp = 0 := by
      rw [timeOffset, if_pos (Or.inl (by omega))]
    unfold filterStep
    rw [if_neg (by simp only [not_or]; refine ⟨by omega, by omega, ?_⟩; rw [hto]; omega)]
    rw [if_pos (Or.inr (Or.inr (Or.inl (by omega))))]
